import Mathlib

/-!
A shallow embedding of the demjson JSON encoder/decoder (demjson.py) in Lean 4,
together with theorems settling the frozen claims about it.

Modelling conventions, applied throughout:

* Python text is modelled as `List Char` with explicit indices, mirroring the
  source's index-based scanning (`s[i]`, `imax`).  Out-of-range reads that the
  source never performs are made total with a default character.
* Every function that can `raise` returns `Except Err _`.  All of the source's
  exception classes collapse onto the constructors of `Err`; messages are kept
  verbatim where short.
* Machine integers do not occur: Python ints are arbitrary precision, matching
  Lean's `Int`/`Nat` directly.
* Python floats are kept abstract: the decoder records the literal text and
  sign from which `float(...)` would be called (constructor `PyNum.floatLit`),
  and the four special values `-0.0`, `nan`, `inf`, `-inf` that the source
  constructs directly are distinguished constructors.  The host's
  `repr(float)` is a parameter of the encoder (`Host`), since its shortest
  round-trip algorithm is not part of this repository.
* No user hooks are installed (the default state after `JSON.__init__`); the
  hook branches of the source are therefore no-ops and are omitted.
* `unicodedata` category queries are embedded as explicit code-point tables
  (`isZs`, `isCf`); `str.isdigit`/`isalpha`/`isalnum` are embedded at their
  ASCII behaviour, the subset exercised by JSON syntax.
-/

namespace Demjson

/-- The error taxonomy.  `JSONDecodeError`, `JSONEncodeError`, Python's
`ValueError`/`UnicodeDecodeError`/`UnicodeEncodeError`, and the artificial
out-of-fuel case of the embedding (never reached for the fuel supplied by the
top-level entry points). -/
inductive Err where
  | decodeError (msg : String)
  | encodeError (msg : String)
  | valueError (msg : String)
  | unicodeDecodeError (msg : String)
  | unicodeEncodeError (msg : String)
  | outOfFuel
  deriving Repr, DecidableEq

/-- Python numbers as produced by the decoder and consumed by the encoder.
`int` is an arbitrary-precision integer; `negZero` is the float `-0.0`
produced at the minus-zero promotion; `nan`/`inf`/`neginf` are the module
level non-number float constants; `floatLit lit sign` stands for
`float(lit) * sign`; `decLit lit sign` stands for `decimal.Decimal(lit) * sign`. -/
inductive PyNum where
  | int (n : Int)
  | negZero
  | nan
  | inf
  | neginf
  | floatLit (lit : String) (sign : Int)
  | decLit (lit : String) (sign : Int)
  deriving Repr, DecidableEq

/-- The value tree: Python values reachable from decoding.  Dictionaries are
association lists in insertion order (keys are strings or numbers). -/
inductive PyVal where
  | none
  | undef
  | bool (b : Bool)
  | num (n : PyNum)
  | str (s : String)
  | list (xs : List PyVal)
  | dict (entries : List (PyVal × PyVal))
  deriving Repr

/-- Python `==` on dictionary keys (strings and numbers, the only key types the
decoder can produce).  `nan` is identified with itself because the decoder
always returns the one module-level `nan` object and Python containers compare
by identity first.  Distinct float/decimal literals are conservatively treated
as distinct keys. -/
def pyKeyEq : PyVal → PyVal → Bool
  | .str a, .str b => a == b
  | .num (.int a), .num (.int b) => a == b
  | .num (.int a), .num .negZero => a == 0
  | .num .negZero, .num (.int b) => 0 == b
  | .num .negZero, .num .negZero => true
  | .num .nan, .num .nan => true
  | .num .inf, .num .inf => true
  | .num .neginf, .num .neginf => true
  | .num (.floatLit l s), .num (.floatLit l' s') => l == l' && s == s'
  | .num (.decLit l s), .num (.decLit l' s') => l == l' && s == s'
  | _, _ => false

/-- `obj[key] = val` on the association-list model of a Python dict: replace in
place if an equal key is present, else append. -/
def dictInsert (entries : List (PyVal × PyVal)) (key val : PyVal) :
    List (PyVal × PyVal) :=
  match entries with
  | [] => [(key, val)]
  | (k, v) :: rest =>
      if pyKeyEq k key then (k, val) :: rest
      else (k, v) :: dictInsert rest key val

/-! ### Character classes

The source calls `unicodedata.category` and the Unicode-aware string methods
`isdigit`/`isalpha`/`isalnum`.  The source is Python 2 (`unichr`, `has_key`,
string-returning `filter`), so the host interpreter is CPython 2.7, whose
`unicodedata` module implements Unicode Character Database 5.2.0; `Zs` and
`Cf` are embedded as the full UCD 5.2.0 category tables.  (Note two places
where 5.2.0 differs from current tables: U+180E MONGOLIAN VOWEL SEPARATOR is
`Zs` there, not `Cf` — it moved to `Cf` only in Unicode 6.3 — and
U+17B4..17B5 are `Cf` there, reclassified `Mn` in Unicode 6.0.)  The `is*`
methods are embedded at their ASCII behaviour. -/

/-- `unicodedata.category c == 'Zs'` (space separators, UCD 5.2.0: U+0020,
U+00A0, U+1680, U+180E, U+2000..200A, U+202F, U+205F, U+3000). -/
def isZs (c : Char) : Bool :=
  let n := c.toNat
  n == 0x20 || n == 0xA0 || n == 0x1680 || n == 0x180E ||
  (0x2000 ≤ n && n ≤ 0x200A) || n == 0x202F || n == 0x205F || n == 0x3000

/-- `unicodedata.category c == 'Cf'` (format control characters, UCD 5.2.0:
U+00AD, U+0600..0603, U+06DD, U+070F, U+17B4..17B5, U+200B..200F,
U+202A..202E, U+2060..2064, U+206A..206F, U+FEFF, U+FFF9..FFFB, U+110BD,
U+1D173..1D17A, U+E0001, U+E0020..E007F). -/
def isCf (c : Char) : Bool :=
  let n := c.toNat
  n == 0xAD ||
  (0x600 ≤ n && n ≤ 0x603) || n == 0x6DD || n == 0x70F ||
  (0x17B4 ≤ n && n ≤ 0x17B5) ||
  (0x200B ≤ n && n ≤ 0x200F) || (0x202A ≤ n && n ≤ 0x202E) ||
  (0x2060 ≤ n && n ≤ 0x2064) || (0x206A ≤ n && n ≤ 0x206F) ||
  n == 0xFEFF || (0xFFF9 ≤ n && n ≤ 0xFFFB) ||
  n == 0x110BD || (0x1D173 ≤ n && n ≤ 0x1D17A) ||
  n == 0xE0001 || (0xE0020 ≤ n && n ≤ 0xE007F)

/-- Python `c.isdigit()`, at its ASCII behaviour. -/
def pyIsDigit (c : Char) : Bool :=
  '0' ≤ c && c ≤ '9'

/-- Python `c.isalpha()`, at its ASCII behaviour. -/
def pyIsAlpha (c : Char) : Bool :=
  ('a' ≤ c && c ≤ 'z') || ('A' ≤ c && c ≤ 'Z')

/-- Python `c.isalnum()`, at its ASCII behaviour. -/
def pyIsAlnum (c : Char) : Bool :=
  pyIsAlpha c || pyIsDigit c

/-! ### helpers (pure functions over characters) -/

/-- `helpers.is_hex_digit`. -/
def is_hex_digit (c : Char) : Bool :=
  ('0' ≤ c && c ≤ '9') || ('a' ≤ c && c ≤ 'f') || ('A' ≤ c && c ≤ 'F')

/-- `helpers.is_octal_digit`. -/
def is_octal_digit (c : Char) : Bool :=
  '0' ≤ c && c ≤ '7'

/-- `helpers.decode_hex`: decodes a hexadecimal string into its integer value.
Raises on any non-hex character. -/
def decode_hex (hexstring : List Char) : Except Err Nat := do
  let mut n := 0
  for c in hexstring do
    if '0' ≤ c && c ≤ '9' then
      n := n * 16 + (c.toNat - '0'.toNat)
    else if 'a' ≤ c && c ≤ 'f' then
      n := n * 16 + (c.toNat - 'a'.toNat + 10)
    else if 'A' ≤ c && c ≤ 'F' then
      n := n * 16 + (c.toNat - 'A'.toNat + 10)
    else
      throw (.decodeError "not a hexadecimal number")
  return n

/-- `helpers.decode_octal`: decodes an octal string into its integer value. -/
def decode_octal (octalstring : List Char) : Except Err Nat := do
  let mut n := 0
  for c in octalstring do
    if '0' ≤ c && c ≤ '7' then
      n := n * 8 + (c.toNat - '0'.toNat)
    else
      throw (.valueError "Not an octal number")
  return n

/-- `helpers.char_is_json_ws`. -/
def char_is_json_ws (c : Char) : Bool :=
  c == ' ' || c == '\t' || c == '\n' || c == '\r'

/-- `helpers.char_is_unicode_ws`: the ECMAScript whitespace test
(`' \t\n\r\f\v'` or category `Zs`). -/
def char_is_unicode_ws (c : Char) : Bool :=
  c == ' ' || c == '\t' || c == '\n' || c == '\r' ||
  c == '\x0c' || c == '\x0b' || isZs c

/-- `helpers.strip_format_control_chars`: filters out all Unicode format
control (`Cf`) characters from the text. -/
def strip_format_control_chars (txt : List Char) : List Char :=
  txt.filter (fun c => !(isCf c))

/-- `helpers.surrogate_pair_as_unicode`: combines a surrogate pair into the
equivalent code point.  The code units are carried as numbers because lone
surrogates are not Lean scalar values. -/
def surrogate_pair_as_unicode (n1 n2 : Nat) : Except Err Nat := do
  if n1 < 0xD800 || n1 > 0xDBFF || n2 < 0xDC00 || n2 > 0xDFFF then
    throw (.decodeError "illegal Unicode surrogate pair")
  let a := n1 - 0xD800
  let b := n2 - 0xDC00
  return ((a <<< 10) ||| b) + 0x10000

/-- `helpers.unicode_as_surrogate_pair`: splits a code point into a surrogate
pair when it is outside the BMP, else returns it unchanged (as code units). -/
def unicode_as_surrogate_pair (n : Nat) : List Nat :=
  if n < 0x10000 then [n]
  else
    let v := n - 0x10000
    let vh := (v >>> 10) &&& 0x3ff
    let vl := v &&& 0x3ff
    [0xD800 ||| vh, 0xDC00 ||| vl]

/-- `helpers.unsafe_string_chars` as a predicate: the characters below U+0100
that are `"`, `\`, or of category `Cc`/`Cf`/`Zl`/`Zp`.  Within that range these
categories are exactly U+0000–U+001F, U+007F–U+009F (`Cc`) and U+00AD (`Cf`). -/
def unsafe_string_char (c : Char) : Bool :=
  let n := c.toNat
  n ≤ 0x1F || c == '"' || c == '\\' || (0x7F ≤ n && n ≤ 0x9F) || n == 0xAD

/-! ### The strictness controller (`JSON._set_strictness` and friends) -/

/-- The boolean behaviour flags of a `JSON` instance (`self._allow_*`), in the
order the source declares them. -/
structure Flags where
  any_type_at_start : Bool
  all_numeric_signs : Bool
  comments : Bool
  control_char_in_string : Bool
  hex_numbers : Bool
  initial_decimal_point : Bool
  js_string_escapes : Bool
  non_numbers : Bool
  nonescape_characters : Bool
  nonstring_keys : Bool
  omitted_array_elements : Bool
  single_quoted_strings : Bool
  trailing_comma_in_literal : Bool
  undefined_values : Bool
  unicode_format_control_chars : Bool
  unicode_whitespace : Bool
  octal_numbers : Bool
  deriving Repr, DecidableEq

/-- `JSON._set_strictness`: the strict/non-strict baseline.
`any_type_at_start` is always on (RFC 7158), `octal_numbers` always off, every
other behaviour is `not strict`. -/
def set_strictness (strict : Bool) : Flags where
  any_type_at_start := true
  all_numeric_signs := !strict
  comments := !strict
  control_char_in_string := !strict
  hex_numbers := !strict
  initial_decimal_point := !strict
  js_string_escapes := !strict
  non_numbers := !strict
  nonescape_characters := !strict
  nonstring_keys := !strict
  omitted_array_elements := !strict
  single_quoted_strings := !strict
  trailing_comma_in_literal := !strict
  undefined_values := !strict
  unicode_format_control_chars := !strict
  unicode_whitespace := !strict
  octal_numbers := false

/-- The behaviour names, sorted, paired with their accessors: the instance
attributes `_allow_*` enumerated by `_get_behaviors`. -/
def behaviorTable : List (String × (Flags → Bool)) :=
  [("all_numeric_signs", Flags.all_numeric_signs),
   ("any_type_at_start", Flags.any_type_at_start),
   ("comments", Flags.comments),
   ("control_char_in_string", Flags.control_char_in_string),
   ("hex_numbers", Flags.hex_numbers),
   ("initial_decimal_point", Flags.initial_decimal_point),
   ("js_string_escapes", Flags.js_string_escapes),
   ("non_numbers", Flags.non_numbers),
   ("nonescape_characters", Flags.nonescape_characters),
   ("nonstring_keys", Flags.nonstring_keys),
   ("octal_numbers", Flags.octal_numbers),
   ("omitted_array_elements", Flags.omitted_array_elements),
   ("single_quoted_strings", Flags.single_quoted_strings),
   ("trailing_comma_in_literal", Flags.trailing_comma_in_literal),
   ("undefined_values", Flags.undefined_values),
   ("unicode_format_control_chars", Flags.unicode_format_control_chars),
   ("unicode_whitespace", Flags.unicode_whitespace)]

/-- `JSON._get_allowed_behaviors`: the sorted names of the currently allowed
behaviours. -/
def allowed_behaviors (f : Flags) : List String :=
  (behaviorTable.filter (fun p => p.2 f)).map Prod.fst

/-- `JSON._is_strict` (the getter of the `strict` property):
`not self.allowed_behaviors`. -/
def is_strict (f : Flags) : Bool :=
  (allowed_behaviors f).isEmpty

/-- `JSON.prevent`: turn one named behaviour off.  Unknown names raise in the
source; here the name is given by its accessor position in `behaviorTable`,
so only known names are representable. -/
def prevent (f : Flags) (behavior : String) : Flags :=
  { f with
    any_type_at_start := f.any_type_at_start && behavior != "any_type_at_start"
    all_numeric_signs := f.all_numeric_signs && behavior != "all_numeric_signs"
    comments := f.comments && behavior != "comments"
    control_char_in_string := f.control_char_in_string && behavior != "control_char_in_string"
    hex_numbers := f.hex_numbers && behavior != "hex_numbers"
    initial_decimal_point := f.initial_decimal_point && behavior != "initial_decimal_point"
    js_string_escapes := f.js_string_escapes && behavior != "js_string_escapes"
    non_numbers := f.non_numbers && behavior != "non_numbers"
    nonescape_characters := f.nonescape_characters && behavior != "nonescape_characters"
    nonstring_keys := f.nonstring_keys && behavior != "nonstring_keys"
    omitted_array_elements := f.omitted_array_elements && behavior != "omitted_array_elements"
    single_quoted_strings := f.single_quoted_strings && behavior != "single_quoted_strings"
    trailing_comma_in_literal := f.trailing_comma_in_literal && behavior != "trailing_comma_in_literal"
    undefined_values := f.undefined_values && behavior != "undefined_values"
    unicode_format_control_chars := f.unicode_format_control_chars && behavior != "unicode_format_control_chars"
    unicode_whitespace := f.unicode_whitespace && behavior != "unicode_whitespace"
    octal_numbers := f.octal_numbers && behavior != "octal_numbers" }

/-- The flag state with every behaviour prevented. -/
def allPrevented : Flags where
  any_type_at_start := false
  all_numeric_signs := false
  comments := false
  control_char_in_string := false
  hex_numbers := false
  initial_decimal_point := false
  js_string_escapes := false
  non_numbers := false
  nonescape_characters := false
  nonstring_keys := false
  omitted_array_elements := false
  single_quoted_strings := false
  trailing_comma_in_literal := false
  undefined_values := false
  unicode_format_control_chars := false
  unicode_whitespace := false
  octal_numbers := false

/-! ### Text access helpers -/

/-- `s[i]` on the character list; out-of-range reads (which the source never
performs on the paths modelled here) give NUL. -/
def charAt (s : List Char) (i : Nat) : Char :=
  s.getD i '\x00'

/-- Python slicing `s[a:b]` (clamped at both ends). -/
def slice (s : List Char) (a b : Nat) : List Char :=
  (s.take b).drop a

/-! ### `JSON.decode_number` -/

/-- Detected float precision of the host (`determine_float_precision`): on a
CPython with IEEE doubles the probe computes 14 significant digits (from
`repr(math.pi)`) and a maximum decimal exponent of 307 (its binary search
stops one below the largest finite power).  The exact values affect only the
float/decimal choice, which no claim depends on. -/
def float_sigdigits : Nat := 14

/-- See `float_sigdigits`. -/
def float_maxexp : Nat := 307

/-- The sign-prefix scan of `decode_number`: consume `+`/`-` characters from
`j`, flipping `sign` on each `-`. -/
def scanSigns (s : List Char) (imax j : Nat) (sign : Int) : Int × Nat :=
  let rec go (j : Nat) (sign : Int) : (fuel : Nat) → Int × Nat
    | 0 => (sign, j)
    | fuel + 1 =>
      if j < imax then
        if charAt s j == '+' || charAt s j == '-' then
          go (j + 1) (if charAt s j == '-' then -sign else sign) fuel
        else (sign, j)
      else (sign, j)
  go j sign (imax + 1)

/-- The hexadecimal digit scan after `0x`. -/
def scanHex (s : List Char) (imax k : Nat) : Nat :=
  let rec go (k : Nat) : (fuel : Nat) → Nat
    | 0 => k
    | fuel + 1 =>
      if k < imax then
        if is_hex_digit (charAt s k) then go (k + 1) fuel else k
      else k
  go k (imax + 1)

/-- Python truthiness of the `ept`/`decpt` indices: `if not ept:` is taken both
when `ept` is `None` and when it is `0`. -/
def optTruthy : Option Nat → Bool
  | some n => n != 0
  | Option.none => false

/-- The state of the digit-sequence scan of `decode_number`. -/
structure NumScan where
  k : Nat
  could_be_octal : Bool
  decpt : Option Nat
  ept : Option Nat
  esign : Char
  sigdigits : Nat
  deriving Repr

/-- The main scan of `decode_number`: walk over digits, `.`, `+`, `-`, `e`,
`E`, recording the decimal-point and exponent positions (relative to `j`) and
the significant-digit count, with the source's early `break`s. -/
def numScan (s : List Char) (imax j : Nat) (st : NumScan) (fuel : Nat) : NumScan :=
  match fuel with
  | 0 => st
  | fuel + 1 =>
  if st.k < imax then
    let c := charAt s st.k
    if pyIsDigit c || c == '.' || c == '+' || c == '-' || c == 'e' || c == 'E' then
      let st := { st with could_be_octal := st.could_be_octal && is_octal_digit c }
      if c == '.' then
        if st.decpt.isSome || st.ept.isSome then st
        else numScan s imax j { st with decpt := some (st.k - j), k := st.k + 1 } fuel
      else if c == 'e' || c == 'E' then
        if st.ept.isSome then st
        else numScan s imax j { st with ept := some (st.k - j), k := st.k + 1 } fuel
      else if c == '+' || c == '-' then
        if !optTruthy st.ept then st
        else numScan s imax j { st with esign := c, k := st.k + 1 } fuel
      else
        let sig := if !optTruthy st.ept then st.sigdigits + 1 else st.sigdigits
        numScan s imax j { st with sigdigits := sig, k := st.k + 1 } fuel
    else st
  else st

/-- A digit run parsed as a natural number, `None` when empty or non-digit:
the core of Python's `int()` on the strings this decoder passes it. -/
def pyNatParse (cs : List Char) : Option Nat :=
  if cs.isEmpty then Option.none
  else cs.foldl
    (fun acc c =>
      acc.bind fun n => if pyIsDigit c then some (n * 10 + (c.toNat - 48)) else Option.none)
    (some 0)

/-- Python `int(string)`: optional single sign then digits. -/
def pyIntParse (cs : List Char) : Option Int :=
  match cs with
  | '+' :: rest => (pyNatParse rest).map Int.ofNat
  | '-' :: rest => (pyNatParse rest).map (fun n => -(n : Int))
  | _ => (pyNatParse cs).map Int.ofNat

/-- `JSON.decode_number` (default hooks, i.e. none installed): decodes a JSON
numeric literal starting at `i`, returning the value and the index after it. -/
def decode_number (f : Flags) (s : List Char) (i : Nat) (imax : Nat) :
    Except Err (PyNum × Nat) := do
  -- Detect initial sign character(s)
  if !f.all_numeric_signs then
    if charAt s i == '+' ||
        (charAt s i == '-' && i + 1 < imax &&
          (charAt s (i + 1) == '+' || charAt s (i + 1) == '-')) then
      throw (.decodeError
        "numbers in strict JSON may only have a single \x22-\x22 as a sign prefix")
  let (sign, j) := scanSigns s imax i 1
  -- ECMAScript symbolic non-numbers
  if slice s j (j + 3) == ['N', 'a', 'N'] then
    if f.non_numbers then
      return (.nan, j + 3)
    else
      throw (.decodeError "NaN literals are not allowed in strict JSON")
  else if slice s j (j + 8) == ['I', 'n', 'f', 'i', 'n', 'i', 't', 'y'] then
    if f.non_numbers then
      if sign < 0 then return (.neginf, j + 8) else return (.inf, j + 8)
    else
      throw (.decodeError "Infinity literals are not allowed in strict JSON")
  else if slice s j (j + 2) == ['0', 'x'] || slice s j (j + 2) == ['0', 'X'] then
    if f.hex_numbers then
      let k := scanHex s imax (j + 2)
      let n ← decode_hex (slice s (j + 2) k)
      return (.int (sign * n), k)
    else
      throw (.decodeError "hexadecimal literals are not allowed in strict JSON")
  else
    -- Decimal (or octal) number
    let st := numScan s imax j
      { k := j
        could_be_octal := j + 1 < imax && charAt s j == '0'
        decpt := Option.none
        ept := Option.none
        esign := '+'
        sigdigits := 0 } (imax + 1)
    let k := st.k
    let number := slice s j k
    -- Octal integers first, as an exception
    if st.could_be_octal && f.octal_numbers then
      let n ← decode_octal number
      return (.int (sign * n), k)
    -- (`number[0]` raises IndexError in Python when the scan matched nothing)
    if number.isEmpty then
      throw (.valueError "string index out of range")
    if charAt number 0 == '.' && !f.initial_decimal_point then
      throw (.decodeError
        "numbers in strict JSON must have at least one digit before the decimal point")
    else if charAt number 0 == '0' && number.length > 1 && pyIsDigit (charAt number 1) then
      if f.octal_numbers then
        throw (.decodeError "initial zero digit is only allowed for octal integers")
      else
        throw (.decodeError
          "initial zero digit must not be followed by other digits (octal numbers are not permitted)")
    -- Decimal point must be followed by a digit
    if let some d := st.decpt then
      if d + 1 ≥ number.length || !pyIsDigit (charAt number (d + 1)) then
        throw (.decodeError "decimal point must be followed by at least one digit")
    -- Determine the exponential part
    let exponent : Int ←
      match st.ept with
      | some e =>
          if e + 1 ≥ number.length then
            throw (.decodeError "exponent in number is truncated")
          else
            match pyIntParse (slice number (e + 1) number.length) with
            | some v => pure v
            | Option.none => throw (.decodeError "not a valid exponent in number")
      | Option.none => pure 0
  -- Try to make an int/long first
    if st.decpt.isNone && exponent ≥ 0 then
      let intPart := if optTruthy st.ept then number.take ((st.ept).getD 0) else number
      -- (`int(...)` raises ValueError on a non-numeric string; unreachable
      -- from the dispatcher but kept as an error case)
      match pyIntParse intPart with
      | Option.none => throw (.valueError "invalid literal for int()")
      | some n0 =>
          let n := n0 * sign
          let n := if exponent != 0 then n * (10 : Int) ^ exponent.toNat else n
          if n == 0 && sign < 0 then
            -- minus zero, must preserve negative sign so make a float
            return (.negZero, k)
          else
            return (.int n, k)
    else
      -- `decimal.Decimal(number)` is exact (no context, no overflow); the
      -- subsequent `n *= sign` is carried symbolically in the constructor.
      if exponent.natAbs > float_maxexp || st.sigdigits > float_sigdigits then
        return (.decLit (String.mk number) sign, k)
      else
        -- `float(number) * sign`, carried symbolically.
        return (.floatLit (String.mk number) sign, k)

/-! ### `JSON.decode_string` -/

/-- `JSON._escapes_json`: the strict JSON escape table. -/
def escapes_json (c : Char) : Option Char :=
  if c == '"' then some '"'
  else if c == '/' then some '/'
  else if c == '\\' then some '\\'
  else if c == 'b' then some '\u0008'
  else if c == 'f' then some '\u000C'
  else if c == 'n' then some '\n'
  else if c == 'r' then some '\r'
  else if c == 't' then some '\t'
  else Option.none

/-- `JSON._escapes_js`: the Javascript escape table (note: no `/` entry). -/
def escapes_js (c : Char) : Option Char :=
  if c == '"' then some '"'
  else if c == '\'' then some '\''
  else if c == '\\' then some '\\'
  else if c == 'b' then some '\u0008'
  else if c == 'f' then some '\u000C'
  else if c == 'n' then some '\n'
  else if c == 'r' then some '\r'
  else if c == 't' then some '\t'
  else if c == 'v' then some '\x0b'
  else if c == '0' then some '\x00'
  else Option.none

/-- `JSON.islineterm`: CR, LF, U+2028, U+2029. -/
def islineterm (c : Char) : Bool :=
  c == '\r' || c == '\n' || c.toNat == 0x2028 || c.toNat == 0x2029

/-- The octal-escape digit scan of `decode_string`: the first position in
`[i, i+maxdigits]` that is out of range or not an octal digit, else
`i + maxdigits` (the `for k in range(i, i+maxdigits+1)` loop with its final
iteration value). -/
def scanOctalEsc (s : List Char) (imax i maxdigits : Nat) : Nat :=
  let rec go (k : Nat) (fuel : Nat) : Nat :=
    match fuel with
    | 0 => k
    | fuel + 1 =>
        if k ≥ imax || !is_octal_digit (charAt s k) then k
        else if k + 1 ≤ i + maxdigits then go (k + 1) fuel
        else k
  go i (maxdigits + 1)

/-- The run scan of plain characters inside a string literal: advance while the
character is neither in `unsafe_string_chars` nor the closing quote. -/
def scanSafe (s : List Char) (imax : Nat) (closer : Char) (i : Nat) : Nat :=
  let rec go (i : Nat) : (fuel : Nat) → Nat
    | 0 => i
    | fuel + 1 =>
      if i < imax then
        if !unsafe_string_char (charAt s i) && charAt s i != closer then
          go (i + 1) fuel
        else i
      else i
  go i (imax + 1)

/-- The body of `decode_string`'s `while i < imax` loop.  `chunks` is the
accumulated chunk list, `highSur` the pending high surrogate (a code unit,
carried as a number).  `fuel` is an upper bound on the remaining iterations;
the wrapper supplies enough for every input. -/
def decode_string_loop (f : Flags) (s : List Char) (imax : Nat) (closer : Char)
    (i : Nat) (chunks : List String) (highSur : Option Nat) :
    (fuel : Nat) → Except Err (String × Nat)
  | 0 => throw .outOfFuel
  | fuel + 1 => do
    if i < imax then
      let c := charAt s i
      -- Make sure a high surrogate is immediately followed by a low surrogate
      if highSur.isSome &&
          (i + 1 ≥ imax || !(charAt s i == '\\' && charAt s (i + 1) == 'u')) then
        throw (.decodeError "High unicode surrogate must be followed by a low surrogate")
      else if c == closer then
        return (String.join chunks, i + 1)
      else if c == '\\' then
        -- Escaped character
        let i1 := i + 1
        if i1 ≥ imax then
          throw (.decodeError "escape in string literal is incomplete")
        let c := charAt s i1
        if is_octal_digit c && f.octal_numbers then
          -- Octal escape codes, Annex B.1.2 of the ECMAScript standard
          let maxdigits := if c ≤ '3' then 3 else 2
          let k := scanOctalEsc s imax i1 maxdigits
          let n ← decode_octal (slice s i1 k)
          decode_string_loop f s imax closer k
            (chunks ++ [String.singleton (Char.ofNat n)]) highSur fuel
        else
          let esc := if f.js_string_escapes then escapes_js c else escapes_json c
          match esc with
          | some e =>
              decode_string_loop f s imax closer (i1 + 1)
                (chunks ++ [String.singleton e]) highSur fuel
          | Option.none =>
            if c == 'u' || c == 'x' then
              let i2 := i1 + 1
              if c == 'x' && !f.js_string_escapes then
                throw (.decodeError
                  "string literals may not use the \\x hex-escape in strict JSON")
              let digits := if c == 'u' then 4 else 2
              if i2 + digits ≥ imax then
                throw (.decodeError "numeric character escape sequence is truncated")
              let n ← decode_hex (slice s i2 (i2 + digits))
              match highSur with
              | some hi =>
                  -- Decode surrogate pair and clear high surrogate
                  let v ← surrogate_pair_as_unicode hi n
                  decode_string_loop f s imax closer (i2 + digits)
                    (chunks ++ [String.singleton (Char.ofNat v)]) Option.none fuel
              | Option.none =>
                  if n < 128 then
                    decode_string_loop f s imax closer (i2 + digits)
                      (chunks ++ [String.singleton (Char.ofNat n)]) Option.none fuel
                  else if 0xd800 ≤ n && n ≤ 0xdbff then
                    -- high surrogate
                    if imax < i2 + digits + 2 || charAt s (i2 + digits) != '\\' ||
                        charAt s (i2 + digits + 1) != 'u' then
                      throw (.decodeError
                        "High unicode surrogate must be followed by a low surrogate")
                    else
                      decode_string_loop f s imax closer (i2 + digits)
                        chunks (some n) fuel
                  else if 0xdc00 ≤ n && n ≤ 0xdfff then
                    throw (.decodeError
                      "Low unicode surrogate must be proceeded by a high surrogate")
                  else
                    decode_string_loop f s imax closer (i2 + digits)
                      (chunks ++ [String.singleton (Char.ofNat n)]) Option.none fuel
            else
              -- Unknown escape sequence
              if f.nonescape_characters then
                decode_string_loop f s imax closer (i1 + 1)
                  (chunks ++ [String.singleton c]) highSur fuel
              else
                throw (.decodeError "unsupported escape code in JSON string literal")
      else if c.toNat ≤ 0x1f then
        -- A control character
        if islineterm c then
          throw (.decodeError
            "line terminator characters must be escaped inside string literals")
        else if f.control_char_in_string then
          decode_string_loop f s imax closer (i + 1)
            (chunks ++ [String.singleton c]) highSur fuel
        else
          throw (.decodeError
            "control characters must be escaped inside JSON string literals")
      else
        -- A normal character: find a whole run of safe characters
        let j := i
        let i' := scanSafe s imax closer (i + 1)
        decode_string_loop f s imax closer i'
          (chunks ++ [String.mk (slice s j i')]) highSur fuel
    else
      throw (.decodeError "string literal is not terminated with a quotation mark")

/-- `JSON.decode_string` (default hooks): decodes a JSON string literal
starting at `i`, returning the string and the index after the closing quote. -/
def decode_string (f : Flags) (s : List Char) (i imax : Nat) :
    Except Err (String × Nat) := do
  if imax < i + 2 || !(charAt s i == '"' || charAt s i == '\'') then
    throw (.decodeError "string literal must be properly quoted")
  let closer := charAt s i
  if closer == '\'' && !f.single_quoted_strings then
    throw (.decodeError "string literals must use double quotation marks in strict JSON")
  decode_string_loop f s imax closer (i + 1) [] Option.none (imax + 1)

/-! ### Whitespace and comments -/

/-- `JSON.isws`: narrow JSON whitespace, or ECMAScript whitespace when
`unicode_whitespace` is allowed. -/
def isws (f : Flags) (c : Char) : Bool :=
  if !f.unicode_whitespace then char_is_json_ws c
  else char_is_unicode_ws c

/-- The scanning loop of `JSON.skip_comment`, returning the index just past
the comment (or at the line terminator for `//` comments). -/
def skip_comment_loop (txt : List Char) (multiline : Bool) (i : Nat)
    (fuel : Nat) : Except Err Nat :=
  match fuel with
  | 0 => throw .outOfFuel
  | fuel + 1 =>
  if i < txt.length then
    if multiline then
      if charAt txt i == '*' && i + 1 < txt.length && charAt txt (i + 1) == '/' then
        pure (i + 2)
      else if charAt txt i == '/' && i + 1 < txt.length && charAt txt (i + 1) == '*' then
        throw (.decodeError "multiline /* */ comments may not nest")
      else
        skip_comment_loop txt multiline (i + 1) fuel
    else
      if islineterm (charAt txt i) then pure i
      else skip_comment_loop txt multiline (i + 1) fuel
  else
    -- comment terminated by end of file: okay for `//`, an error for `/* */`
    if !multiline then pure txt.length
    else throw (.decodeError "comment was never terminated")

/-- `JSON.skip_comment`: skips one `//` or `/* */` comment starting at `i`,
returning the comment text (or `none` when `i` does not start a comment) and
the index after it. -/
def skip_comment (f : Flags) (txt : List Char) (i : Nat) :
    Except Err (Option (List Char) × Nat) := do
  if i + 1 ≥ txt.length || charAt txt i != '/' ||
      !(charAt txt (i + 1) == '/' || charAt txt (i + 1) == '*') then
    return (Option.none, i)
  if !f.comments then
    throw (.decodeError "comments are not allowed in strict JSON")
  let multiline := charAt txt (i + 1) == '*'
  let j ← skip_comment_loop txt multiline (i + 2) (txt.length + 1)
  return (some (slice txt i j), j)

/-- The narrow-whitespace fast path of `JSON.skipws`. -/
def skipws_simple (txt : List Char) (i imax : Nat) : Nat :=
  let rec go (i : Nat) : (fuel : Nat) → Nat
    | 0 => i
    | fuel + 1 =>
      if i < imax then
        if char_is_json_ws (charAt txt i) then go (i + 1) fuel
        else i
      else i
  go i (imax + 1)

/-- The loop of `JSON.skipws_any`: skip whitespace interleaved with comments.
Note the source `break`s as soon as the first character after a comment is not
whitespace (so two adjacent comments are not both skipped). -/
def skipws_any_loop (f : Flags) (txt : List Char) (imax : Nat) (i : Nat) :
    (fuel : Nat) → Except Err Nat
  | 0 => throw .outOfFuel
  | fuel + 1 => do
    if i < imax then
      let i' ←
        if charAt txt i == '/' then do
          let r ← skip_comment f txt i
          pure r.2
        else pure i
      if i' < imax && isws f (charAt txt i') then
        skipws_any_loop f txt imax (i' + 1) fuel
      else
        pure i'
    else
      pure i

/-- `JSON.skipws_any`. -/
def skipws_any (f : Flags) (txt : List Char) (i imax : Nat) : Except Err Nat :=
  skipws_any_loop f txt imax i (imax + 1)

/-- `JSON.skipws`: narrow fast path when neither comments nor Unicode
whitespace are allowed, else `skipws_any`. -/
def skipws (f : Flags) (txt : List Char) (i imax : Nat) : Except Err Nat :=
  if !f.comments && !f.unicode_whitespace then pure (skipws_simple txt i imax)
  else skipws_any f txt i imax

/-! ### `JSON.decode_composite`, `JSON.decodeobj`, `JSON.decode` -/

/-- `helpers.isstringtype` on the value model. -/
def isstringtype : PyVal → Bool
  | .str _ => true
  | _ => false

/-- `helpers.isnumbertype` on the value model (a Python number that is not a
bool, or one of the `nan`/`inf`/`neginf` constants). -/
def isnumbertype : PyVal → Bool
  | .num _ => true
  | _ => false

/-- The scan of an identifier/keyword run in `JSON.decodeobj`
(`txt[j].isalnum() or txt[j] in '_$'`). -/
def scanIdent (txt : List Char) (imax j : Nat) : Nat :=
  let rec go (j : Nat) : (fuel : Nat) → Nat
    | 0 => j
    | fuel + 1 =>
      if j < imax then
        if pyIsAlnum (charAt txt j) || charAt txt j == '_' || charAt txt j == '$' then
          go (j + 1) fuel
        else j
      else j
  go j (imax + 1)

mutual

/-- `JSON.decodeobj` (default hooks): decode one value starting at (or after
whitespace from) `i`.  The source returns a pair or raises; `r` is never a
false value, so the callers' `if r:` tests always pass. -/
def decodeobj (f : Flags) (txt : List Char) (i imax : Nat)
    (identifier_as_string only_object_or_array : Bool)
    (fuel : Nat) : Except Err (PyVal × Nat) :=
  match fuel with
  | 0 => throw .outOfFuel
  | .succ fuel => do
    let i ← skipws f txt i imax
    if i ≥ imax then
      throw (.decodeError "Unexpected end of input")
    let c := charAt txt i
    if c == '[' || c == '{' then
      decode_composite f txt i imax fuel
    else if only_object_or_array then
      throw (.decodeError "JSON document must start with an object or array type only")
    else if c == '"' || c == '\'' then
      let r ← decode_string f txt i imax
      return (.str r.1, r.2)
    else if pyIsDigit c || c == '.' || c == '+' || c == '-' then
      let r ← decode_number f txt i imax
      return (.num r.1, r.2)
    else if pyIsAlpha c || c == '_' || c == '$' then
      let j := scanIdent txt imax i
      let kw := slice txt i j
      if kw == "null".data then
        return (.none, j)
      else if kw == "true".data then
        return (.bool true, j)
      else if kw == "false".data then
        return (.bool false, j)
      else if kw == "undefined".data then
        if f.undefined_values then
          return (.undef, j)
        else
          throw (.decodeError "strict JSON does not allow undefined elements")
      else if kw == "NaN".data || kw == "Infinity".data then
        let r ← decode_number f txt i txt.length
        return (.num r.1, r.2)
      else
        if identifier_as_string then
          -- decode_javascript_identifier: by default the string itself
          return (.str (String.mk kw), j)
        else
          throw (.decodeError "unknown keyword or identifier")
    else
      throw (.decodeError "can not decode value")
termination_by structural fuel

/-- The `while i < imax` member loop of `JSON.decode_composite`.  `acc` is the
accumulated list or dictionary. -/
def decode_composite_loop (f : Flags) (txt : List Char) (imax : Nat)
    (isdict : Bool) (closer : Char) (starti : Nat)
    (listAcc : List PyVal) (dictAcc : List (PyVal × PyVal))
    (saw_value : Bool) (i : Nat)
    (fuel : Nat) : Except Err (PyVal × Nat) :=
  match fuel with
  | 0 => throw .outOfFuel
  | .succ fuel => do
    if i < imax then
      let i ← skipws f txt i imax
      if i < imax && (charAt txt i == ',' || charAt txt i == closer) then
        let c := charAt txt i
        let i := i + 1
        if c == ',' then
          if !saw_value then
            -- no preceding value, an elided (omitted) element
            if isdict then
              throw (.decodeError "can not omit elements of an object (dictionary)")
            if f.omitted_array_elements then
              if f.undefined_values then
                decode_composite_loop f txt imax isdict closer starti
                  (listAcc ++ [.undef]) dictAcc false i fuel
              else
                decode_composite_loop f txt imax isdict closer starti
                  (listAcc ++ [.none]) dictAcc false i fuel
            else
              throw (.decodeError
                "strict JSON does not permit omitted array (list) elements")
          else
            decode_composite_loop f txt imax isdict closer starti
              listAcc dictAcc false i fuel
        else
          -- c == closer
          if !saw_value && !f.trailing_comma_in_literal then
            if isdict then
              throw (.decodeError
                "strict JSON does not allow a final comma in an object (dictionary) literal")
            else
              throw (.decodeError
                "strict JSON does not allow a final comma in an array (list) literal")
          -- done
          if isdict then return (.dict dictAcc, i)
          else return (.list listAcc, i)
      else
        -- Decode the item
        let r ←
          if isdict && f.nonstring_keys then
            decodeobj f txt i imax true false fuel
          else
            decodeobj f txt i imax false false fuel
        if saw_value then
          -- two values without a separating comma
          throw (.decodeError "values must be separated by a comma")
        let i ← skipws f txt r.2 imax
        if isdict then
          let key := r.1
          if !isstringtype key then
            if isnumbertype key then
              if !f.nonstring_keys then
                throw (.decodeError
                  "strict JSON only permits string literals as object properties (dictionary keys)")
            else
              throw (.decodeError
                "object properties (dictionary keys) must be either string literals or numbers")
          if i ≥ imax || charAt txt i != ':' then
            throw (.decodeError
              "object property (dictionary key) has no value, expected \x22:\x22")
          let i := i + 1
          let i ← skipws f txt i imax
          let rval ← decodeobj f txt i imax false false fuel
          let i ← skipws f txt rval.2 imax
          decode_composite_loop f txt imax isdict closer starti
            listAcc (dictInsert dictAcc key rval.1) true i fuel
        else
          decode_composite_loop f txt imax isdict closer starti
            (listAcc ++ [r.1]) dictAcc true i fuel
    else
      -- end while without `done`
      if isdict then
        throw (.decodeError "object literal (dictionary) is not terminated")
      else
        throw (.decodeError "array literal (list) is not terminated")
termination_by structural fuel

/-- `JSON.decode_composite` (default hooks): decode an array or object literal. -/
def decode_composite (f : Flags) (txt : List Char) (i imax : Nat)
    (fuel : Nat) : Except Err (PyVal × Nat) :=
  match fuel with
  | 0 => throw .outOfFuel
  | .succ fuel => do
    let i ← skipws f txt i imax
    let starti := i
    if i ≥ imax || !(charAt txt i == '[' || charAt txt i == '{') then
      throw (.decodeError "composite object must start with \x22[\x22 or \x22\x7b\x22")
    let isdict := charAt txt i == '{'
    let closer := if isdict then '}' else ']'
    let i := i + 1
    let i ← skipws f txt i imax
    if i < imax && charAt txt i == closer then
      -- empty composite
      if isdict then return (.dict [], i + 1)
      else return (.list [], i + 1)
    else
      decode_composite_loop f txt imax isdict closer starti [] [] false i fuel
termination_by structural fuel

end

/-- `JSON.decode` (the method, default hooks): strip format-control characters
when allowed, decode the root value, and require only whitespace after it. -/
def decode_method (f : Flags) (txt : List Char) : Except Err PyVal := do
  let txt := if f.unicode_format_control_chars then strip_format_control_chars txt else txt
  let r ← decodeobj f txt 0 txt.length false (!f.any_type_at_start) (txt.length + 1)
  let i ← skipws f txt r.2 txt.length
  if i < txt.length then
    throw (.decodeError "unexpected or extra text")
  return r.1

/-! ### The encoder

The encoder needs two host functions that are not part of this repository:
`repr` on floats and `str` on decimals.  They are parameters (`Host`); no
claim depends on their values. -/

/-- Host functions: `repr(float(lit) * sign)` and `str(Decimal(lit) * sign)`. -/
structure Host where
  floatRepr : String → Int → String
  decStr : String → Int → String

/-- The relevant mutable state of a `JSON` instance: the behaviour flags plus
the encoder settings fixed in `__init__` (`_encode_compactly`,
`_encode_unicode_as_escapes` as a boolean, and `_sort_dictionary_keys`, which
`__init__` always sets to `True`). -/
structure Inst where
  flags : Flags
  encode_compactly : Bool
  encode_unicode_as_escapes : Bool
  sort_dictionary_keys : Bool := true

/-- Substring test (Python's `in` on strings). -/
def strContains (sub s : String) : Bool :=
  (List.range (s.data.length + 1)).any (fun k => sub.data.isPrefixOf (s.data.drop k))

/-- `'%04x' % n`: four-digit zero-padded lowercase hex (for `n ≤ 0xFFFF`). -/
def hex4 (n : Nat) : String :=
  let ds := Nat.toDigits 16 n
  let pad := List.replicate (4 - ds.length) '0'
  String.mk (pad ++ ds)

/-- `JSON.encode_number`: integers via `str`, decimals via `str`, the
non-number constants by identity, other floats via `repr` with the source's
`inf`/`nan` substring tests on the lower-cased repr.  (`repr(-0.0)` is the
fixed host string `-0.0`.) -/
def encode_number (h : Host) : PyNum → Except Err String
  | .int n => pure (toString n)
  | .decLit lit sign => pure (h.decStr lit sign)
  | .nan => pure "NaN"
  | .inf => pure "Infinity"
  | .neginf => pure "-Infinity"
  | .negZero => pure "-0.0"
  | .floatLit lit sign =>
      let r := h.floatRepr lit sign
      let reprn := r.toLower
      if strContains "inf" reprn && strContains "-" reprn then pure "-Infinity"
      else if strContains "inf" reprn then pure "Infinity"
      else if strContains "nan" reprn then pure "NaN"
      else pure r

/-- The `_asciiencodable` table of `__init__` as a predicate: printable ASCII
that needs no escape (`32 <= c < 128`, not a reverse-escape key, not category
`Cc`/`Cf`/`Zl`/`Zp`; within `0..255` that leaves `32..126` minus `"` and `\`). -/
def asciiencodable (c : Char) : Bool :=
  32 ≤ c.toNat && c.toNat ≤ 126 && c != '"' && c != '\\'

/-- `JSON._rev_escapes`: the shortcut escapes used by the encoder. -/
def rev_escapes (c : Char) : Option String :=
  if c == '\n' then some "\\n"
  else if c == '\t' then some "\\t"
  else if c == '\x08' then some "\\b"
  else if c == '\r' then some "\\r"
  else if c == '\x0c' then some "\\f"
  else if c == '"' then some "\\\""
  else if c == '\\' then some "\\\\"
  else Option.none

/-- Category test `Cc`/`Cf`/`Zl`/`Zp` used by `encode_string`. -/
def isCcCfZlZp (c : Char) : Bool :=
  c.toNat ≤ 0x1F || (0x7F ≤ c.toNat && c.toNat ≤ 0x9F) || isCf c ||
  c.toNat == 0x2028 || c.toNat == 0x2029

/-- The plain-ASCII run scan of `encode_string`. -/
def scanEncodable (s : List Char) (imax i : Nat) : Nat :=
  let rec go (i : Nat) : (fuel : Nat) → Nat
    | 0 => i
    | fuel + 1 =>
      if i < imax then
        if (charAt s i).toNat < 256 then
          if asciiencodable (charAt s i) then go (i + 1) fuel
          else i
        else i
      else i
  go i (imax + 1)

/-- The character walk of `JSON.encode_string`. -/
def encode_string_loop (inst : Inst) (s : List Char) (imax i : Nat)
    (chunks : List String) : (fuel : Nat) → Except Err (List String)
  | 0 => throw .outOfFuel
  | fuel + 1 => do
    if i < imax then
      let c := charAt s i
      let cord := c.toNat
      if cord < 256 && asciiencodable c then
        -- contiguous run of printable ASCII (the user predicate variant of
        -- `escape_unicode` is not modelled; with a boolean it is never a
        -- function, so the `isinstance(encunicode, bool)` test passes)
        let j := i
        let i' := scanEncodable s imax (i + 1)
        encode_string_loop inst s imax i' (chunks ++ [String.mk (slice s j i')]) fuel
      else
        match rev_escapes c with
        | some e => encode_string_loop inst s imax (i + 1) (chunks ++ [e]) fuel
        | Option.none =>
          if cord ≤ 0x1F then
            encode_string_loop inst s imax (i + 1)
              (chunks ++ ["\\u" ++ hex4 cord]) fuel
          else if 0xD800 ≤ cord && cord ≤ 0xDFFF then
            -- a raw surrogate (unreachable for Lean scalar values, kept as in
            -- the source)
            throw (.encodeError "can not include or escape a Unicode surrogate character")
          else if cord ≤ 0xFFFF then
            let doesc := isCcCfZlZp c || inst.encode_unicode_as_escapes
            if doesc then
              encode_string_loop inst s imax (i + 1)
                (chunks ++ ["\\u" ++ hex4 cord]) fuel
            else
              encode_string_loop inst s imax (i + 1)
                (chunks ++ [String.singleton c]) fuel
          else
            let doesc := isCcCfZlZp c || inst.encode_unicode_as_escapes
            if doesc then
              let pair := unicode_as_surrogate_pair cord
              encode_string_loop inst s imax (i + 1)
                (chunks ++ pair.map (fun u => "\\u" ++ hex4 u)) fuel
            else
              encode_string_loop inst s imax (i + 1)
                (chunks ++ [String.singleton c]) fuel
    else
      pure chunks

/-- `JSON.encode_string`: a Python string to a JSON string literal. -/
def encode_string (inst : Inst) (s : String) : Except Err String := do
  let cs := s.data
  let chunks ← encode_string_loop inst cs cs.length 0 ["\""] (cs.length + 1)
  return String.join (chunks ++ ["\""])

/-- Python string `<`: lexicographic by code point. -/
def charListLt : List Char → List Char → Bool
  | [], [] => false
  | [], _ :: _ => true
  | _ :: _, [] => false
  | a :: as, b :: bs =>
      if a.toNat < b.toNat then true
      else if b.toNat < a.toNat then false
      else charListLt as bs

/-- Lexicographic comparison of chunk lists: Python's `list.sort()` on lists
of strings (strings compare by code point). -/
def chunkListLe (a b : List String) : Bool :=
  match a, b with
  | [], _ => true
  | _ :: _, [] => false
  | x :: xs, y :: ys =>
      if charListLt x.data y.data then true
      else if charListLt y.data x.data then false
      else chunkListLe xs ys

/-- Stable insertion of a chunk list into a sorted list (after all entries
`≤` it), the building block of a stable sort. -/
def insertChunkSorted (x : List String) : List (List String) → List (List String)
  | [] => [x]
  | y :: ys => if chunkListLe y x then y :: insertChunkSorted x ys else x :: y :: ys

/-- Python's stable `list.sort()` under the total preorder `chunkListLe`:
stable insertion sort (extensionally equal to any stable sort under a total
preorder). -/
def pySort (l : List (List String)) : List (List String) :=
  l.foldl (fun acc x => insertChunkSorted x acc) []

/-- `extend_and_flatten_list_with_sep`. -/
def flattenWithSep (parts : List (List String)) (sep : String) : List String :=
  match parts with
  | [] => []
  | [p] => p
  | p :: rest => p ++ (if sep != "" then [sep] else []) ++ flattenWithSep rest sep

mutual

/-- `JSON.encode_helper` (default hooks, no `json_equivalent` objects in the
value model): dispatch on the classification of the value.  Returns the chunk
list the source appends to `chunklist`. -/
def encode_helper (h : Host) (inst : Inst) (obj : PyVal) (nest_level : Nat)
    (fuel : Nat) : Except Err (List String) :=
  match fuel with
  | 0 => throw .outOfFuel
  | fuel + 1 =>
  match obj with
  | .none => pure ["null"]
  | .undef =>
      if inst.flags.undefined_values then pure ["undefined"]
      else throw (.encodeError "strict JSON does not permit \x22undefined\x22 values")
  | .bool b => pure [if b then "true" else "false"]
  | .num n => do
      let e ← encode_number h n
      pure [e]
  | .str s => do
      let e ← encode_string inst s
      pure [e]
  | .list xs => encode_composite_list h inst xs nest_level fuel
  | .dict es => encode_composite_dict h inst es nest_level fuel
termination_by structural fuel

/-- `JSON.encode_composite` on a sequence: the chunk frame around the encoded
items. -/
def encode_composite_list (h : Host) (inst : Inst) (xs : List PyVal)
    (nest_level : Nat) (fuel : Nat) : Except Err (List String) :=
  match fuel with
  | 0 => throw .outOfFuel
  | fuel + 1 => do
  let compactly := inst.encode_compactly
  let indent0 := String.mk (List.replicate (2 * nest_level) ' ')
  let indent := String.mk (List.replicate (2 * (nest_level + 1)) ' ')
  let opening : List String := if compactly then ["["] else ["[", " "]
  let sequence_chunks ← encode_seq_items h inst xs nest_level fuel
  let numitems := xs.length
  let sep := if compactly then "," else ",\n" ++ indent
  let body := flattenWithSep sequence_chunks sep
  let closing : List String :=
    if compactly then ["]"]
    else if numitems > 1 then ["\n" ++ indent0, "]"]
    else [" ", "]"]
  return opening ++ body ++ closing
termination_by structural fuel

/-- `JSON.encode_composite` on a dictionary: per-member chunk lists (key,
colon, value), sorted by their textual form (`_sort_dictionary_keys`), inside
the chunk frame. -/
def encode_composite_dict (h : Host) (inst : Inst)
    (es : List (PyVal × PyVal)) (nest_level : Nat) (fuel : Nat) :
    Except Err (List String) :=
  match fuel with
  | 0 => throw .outOfFuel
  | fuel + 1 => do
  let compactly := inst.encode_compactly
  let indent0 := String.mk (List.replicate (2 * nest_level) ' ')
  let indent := String.mk (List.replicate (2 * (nest_level + 1)) ' ')
  let dictcolon := if compactly then ":" else " : "
  let opening : List String := if compactly then ["\x7b"] else ["\x7b", " "]
  let sequence_chunks ← encode_dict_items h inst es nest_level dictcolon fuel
  let sequence_chunks :=
    if inst.sort_dictionary_keys then pySort sequence_chunks
    else sequence_chunks
  let numitems := es.length
  let sep := if compactly then "," else ",\n" ++ indent
  let body := flattenWithSep sequence_chunks sep
  let closing : List String :=
    if compactly then ["\x7d"]
    else if numitems > 1 then ["\n" ++ indent0, "\x7d"]
    else [" ", "\x7d"]
  return opening ++ body ++ closing
termination_by structural fuel

/-- The member loop of `encode_composite` for sequences. -/
def encode_seq_items (h : Host) (inst : Inst) (xs : List PyVal)
    (nest_level : Nat) (fuel : Nat) : Except Err (List (List String)) :=
  match fuel with
  | 0 => throw .outOfFuel
  | fuel + 1 => do
  match xs with
  | [] => pure []
  | x :: rest => do
      let item ← encode_helper h inst x (nest_level + 1) fuel
      let tail ← encode_seq_items h inst rest nest_level fuel
      pure (item :: tail)
termination_by structural fuel

/-- The member loop of `encode_composite` for dictionaries: key chunks,
`dictcolon`, value chunks (the value at `nest_level + 2`). -/
def encode_dict_items (h : Host) (inst : Inst) (es : List (PyVal × PyVal))
    (nest_level : Nat) (dictcolon : String) (fuel : Nat) :
    Except Err (List (List String)) :=
  match fuel with
  | 0 => throw .outOfFuel
  | fuel + 1 => do
  match es with
  | [] => pure []
  | (k, v) :: rest => do
      -- JSON restrictions on key types
      if !isstringtype k then
        if isnumbertype k then
          if !inst.flags.nonstring_keys then
            throw (.encodeError
              "object properties (dictionary keys) must be strings in strict JSON")
        else
          throw (.encodeError
            "object properties (dictionary keys) can only be strings or numbers in ECMAScript")
      let keyChunks ← encode_helper h inst k (nest_level + 1) fuel
      let valChunks ← encode_helper h inst v (nest_level + 2) fuel
      let tail ← encode_dict_items h inst rest nest_level dictcolon fuel
      pure ((keyChunks ++ [dictcolon] ++ valChunks) :: tail)
termination_by structural fuel

end

/-- `JSON.encode` (the method): encode the value, with the trailing newline in
pretty mode at the top nesting level. -/
def encode_method (h : Host) (inst : Inst) (obj : PyVal) (fuel : Nat) :
    Except Err String := do
  -- `fuel` is an embedding artifact bounding the recursion depth; the
  -- source's recursion is bounded by the finite acyclic value tree, so any
  -- sufficiently large fuel (e.g. the node count of `obj`) gives the source
  -- behaviour, and all theorems hold for every sufficient fuel.
  let chunks ← encode_helper h inst obj 0 fuel
  let chunks := if !inst.encode_compactly then chunks ++ ["\n"] else chunks
  return String.join chunks

/-! ### The UTF-32 codec and encoding auto-detection

Byte strings are `List Nat` (each entry `< 256`). -/

/-- `utf32.BOM_UTF32_BE`. -/
def BOM_UTF32_BE : List Nat := [0, 0, 0xFE, 0xFF]

/-- `utf32.BOM_UTF32_LE`. -/
def BOM_UTF32_LE : List Nat := [0xFF, 0xFE, 0, 0]

/-- `codecs.BOM_UTF16_BE`. -/
def BOM_UTF16_BE : List Nat := [0xFE, 0xFF]

/-- `codecs.BOM_UTF16_LE`. -/
def BOM_UTF16_LE : List Nat := [0xFF, 0xFE]

/-- A byte order: the values of `sys.byteorder` and of the `endianness`
argument words (which the source reduces to their first letter `B`/`L`). -/
inductive Endian where
  | big
  | little
  deriving Repr, DecidableEq

/-- The `errors` policy accepted by the codec. -/
inductive ErrMode where
  | strict
  | ignore
  | replace
  | backslashreplace
  | xmlcharrefreplace
  deriving Repr, DecidableEq

/-- `sys.maxunicode` on a wide (UCS-4) build. -/
def maxunicode : Nat := 0x10FFFF

/-- `'%0<w>x' % n`: lowercase hex, zero-padded to at least `w` digits. -/
def hexPad (w n : Nat) : String :=
  let ds := Nat.toDigits 16 n
  String.mk (List.replicate (w - ds.length) '0' ++ ds)

/-- The per-code-unit loop of `utf32.decode`: read four bytes at a time in the
resolved endianness, handling invalid code points per the `errors` policy.
Returns the accumulated characters and the byte count. -/
def utf32_decode_loop (obj : List Nat) (bigEndian : Bool) (errors : ErrMode)
    (i : Nat) (chars : List Char) (numBytes : Nat) (fuel : Nat) :
    Except Err (List Char × Nat) :=
  match fuel with
  | 0 => throw .outOfFuel
  | fuel + 1 =>
  if i < obj.length then
    let b0 := obj.getD i 0
    let b1 := obj.getD (i + 1) 0
    let b2 := obj.getD (i + 2) 0
    let b3 := obj.getD (i + 3) 0
    let n :=
      if bigEndian then ((b0 * 256 + b1) * 256 + b2) * 256 + b3
      else ((b3 * 256 + b2) * 256 + b1) * 256 + b0
    let numBytes := numBytes + 4
    if n > maxunicode || (0xD800 ≤ n && n ≤ 0xDFFF) then
      match errors with
      | .strict =>
          throw (.unicodeDecodeError ("Invalid code point U+" ++ hexPad 4 n))
      | .replace =>
          utf32_decode_loop obj bigEndian errors (i + 4)
            (chars ++ ['�']) numBytes fuel
      | .backslashreplace =>
          -- (the source's width test is inverted: `\u` for values above
          -- 0xFFFF and `\U%08x` otherwise; embedded as written)
          let esc := if n > 0xFFFF then "\\u" ++ hexPad 4 n else "\\U" ++ hexPad 8 n
          utf32_decode_loop obj bigEndian errors (i + 4)
            (chars ++ esc.data) numBytes fuel
      | .xmlcharrefreplace =>
          let esc := "&#" ++ toString n ++ ";"
          utf32_decode_loop obj bigEndian errors (i + 4)
            (chars ++ esc.data) numBytes fuel
      | .ignore =>
          utf32_decode_loop obj bigEndian errors (i + 4) chars numBytes fuel
    else
      utf32_decode_loop obj bigEndian errors (i + 4)
        (chars ++ [Char.ofNat n]) numBytes fuel
  else
    pure (chars, numBytes)

/-- `utf32.decode`: detect a BOM, resolve the endianness (the caller argument
must match the BOM; with neither, `sys.byteorder` — the platform default — is
used), refuse data whose length after the BOM is not a multiple of four, then
decode.  `sysByteorder` is the platform's `sys.byteorder`. -/
def utf32_decode (sysByteorder : Endian) (obj : List Nat)
    (errors : ErrMode := .strict) (endianness : Option Endian := Option.none) :
    Except Err (String × Nat) := do
  -- Detect BOM
  let (bomEndianness, start) :=
    if BOM_UTF32_BE.isPrefixOf obj then (some Endian.big, BOM_UTF32_BE.length)
    else if BOM_UTF32_LE.isPrefixOf obj then (some Endian.little, BOM_UTF32_LE.length)
    else ((Option.none : Option Endian), 0)
  let e ←
    match endianness with
    | Option.none =>
        match bomEndianness with
        | Option.none => pure sysByteorder  -- Assume platform default
        | some b => pure b
    | some e =>
        match bomEndianness with
        | some b =>
            if e != b then
              throw (.unicodeDecodeError "BOM does not match expected byte order")
            else pure e
        | Option.none => pure e
  -- Check for truncated last character
  if (obj.length - start) % 4 != 0 then
    throw (.unicodeDecodeError "Data length not a multiple of 4 bytes")
  let (chars, numBytes) ← utf32_decode_loop obj (e == .big) errors start [] start (obj.length + 1)
  return (String.mk chars, numBytes)

/-- `helpers.auto_detect_encoding`: guess the Unicode encoding of a byte
string from its BOM, the RFC 4627 §3 null-byte heuristics, or a leading
ASCII byte. -/
def auto_detect_encoding (s : List Nat) : Except Err String := do
  if s.isEmpty then
    return "utf-8"
  let a := s.getD 0 0
  let b := s.getD 1 0
  let c := s.getD 2 0
  let d := s.getD 3 0
  let z := s.getLastD 0
  -- BOM marker
  if s.length ≥ 4 && s.take 4 == BOM_UTF32_LE then
    return "utf-32le"
  else if s.length ≥ 4 && s.take 4 == BOM_UTF32_BE then
    return "utf-32be"
  else if s.length ≥ 2 && s.take 2 == BOM_UTF16_LE then
    return "utf-16le"
  else if s.length ≥ 2 && s.take 2 == BOM_UTF16_BE then
    return "utf-16be"
  -- RFC 4627 section 3 heuristics on the first four bytes
  else if s.length ≥ 4 && a == 0 && b == 0 && c == 0 && d != 0 then
    return "utf-32be"
  else if s.length ≥ 4 && a != 0 && b == 0 && c == 0 && d == 0 && z == 0 then
    return "utf-32le"
  else if s.length ≥ 2 && a == 0 && b != 0 then
    return "utf-16be"
  else if s.length ≥ 2 && a != 0 && b == 0 && z == 0 then
    return "utf-16le"
  else if '\t'.toNat ≤ a && a ≤ 127 then
    -- First byte appears to be ASCII, so guess UTF-8
    return "utf8"
  else
    throw (.decodeError "Can not determine the Unicode encoding for this JSON document")

/-! ## Theorems for the claims -/

/-- C7: setting the strictness baseline with `strict=True` turns every named
behaviour off and with `strict=False` turns every named behaviour on, with
exactly two exceptions: `any_type_at_start` is on in both modes and
`octal_numbers` is off in both modes.  Stated via the
`allowed_behaviors` listing: under `strict=True` exactly `any_type_at_start`
is allowed; under `strict=False` exactly everything except `octal_numbers`. -/
theorem claim_C7_strictness_baseline :
    allowed_behaviors (set_strictness true) = ["any_type_at_start"] ∧
    allowed_behaviors (set_strictness false) =
      ["all_numeric_signs", "any_type_at_start", "comments",
       "control_char_in_string", "hex_numbers", "initial_decimal_point",
       "js_string_escapes", "non_numbers", "nonescape_characters",
       "nonstring_keys", "omitted_array_elements", "single_quoted_strings",
       "trailing_comma_in_literal", "undefined_values",
       "unicode_format_control_chars", "unicode_whitespace"] ∧
    (set_strictness true).any_type_at_start = true ∧
    (set_strictness false).any_type_at_start = true ∧
    (set_strictness true).octal_numbers = false ∧
    (set_strictness false).octal_numbers = false := by
  refine ⟨rfl, rfl, rfl, rfl, rfl, rfl⟩

/-- C9: the `strict` property reads back `False` on every freshly constructed
or freshly re-based instance (because `_set_strictness` always leaves
`any_type_at_start` allowed), and it reads `True` exactly when every
behaviour — `any_type_at_start` included — is prevented. -/
theorem claim_C9_strict_property_reads_false :
    (∀ strict : Bool, is_strict (set_strictness strict) = false) ∧
    (∀ f : Flags, is_strict f = true ↔
      ∀ p ∈ behaviorTable, p.2 f = false) ∧
    is_strict allPrevented = true ∧
    (∀ f : Flags, (behaviorTable.map Prod.fst).foldl prevent f = allPrevented) := by
  refine ⟨by decide, ?_, by decide, ?_⟩
  · intro f
    unfold is_strict allowed_behaviors
    rw [List.isEmpty_iff, List.map_eq_nil_iff, List.filter_eq_nil_iff]
    constructor
    · intro h p hp
      simpa using h p hp
    · intro h p hp
      simpa using h p hp
  · intro f
    rcases f with ⟨a1, a2, a3, a4, a5, a6, a7, a8, a9, a10, a11, a12, a13, a14, a15, a16, a17⟩
    simp +decide [behaviorTable, prevent, allPrevented]

/-- C4: a number literal with zero integer magnitude and a negative sign
decodes to the float `-0.0` (the `negZero` promotion), not the integer `0`,
in both strict and non-strict mode, and re-encoding that value produces text
beginning with `-`. -/
theorem claim_C4_minus_zero :
    (∀ strict : Bool,
      decode_method (set_strictness strict) "-0".data = .ok (.num .negZero) ∧
      decode_method (set_strictness strict) "-0e5".data = .ok (.num .negZero) ∧
      decode_method (set_strictness strict) "-0E5".data = .ok (.num .negZero) ∧
      decode_method (set_strictness strict) "-0e+5".data = .ok (.num .negZero)) ∧
    (∀ (h : Host) (strict compactly : Bool) (fuel : Nat),
      encode_method h
        { flags := set_strictness strict, encode_compactly := compactly,
          encode_unicode_as_escapes := false } (.num .negZero) (fuel + 1) =
        .ok (if compactly then "-0.0" else "-0.0\n")) ∧
    "-0.0".front = '-' := by
  refine ⟨?_, ?_, rfl⟩
  · intro strict
    cases strict <;> exact ⟨rfl, rfl, rfl, rfl⟩
  · intro h strict compactly fuel
    cases compactly <;> rfl

/-- C1 (the round-trip failure mechanism, evaluated at the failing input):
decoding `1.0e23` yields the host float `float('1.0e23')`, whose `repr` on
the host is `1e+23`; but the decoder parses `1e+23` through the integer path
into the exact integer 10^23, which is not equal to that float (10^23 is not
representable in an IEEE double).  So encode-then-decode does not return a
value equal to the original. -/
theorem claim_C1_roundtrip_reparse :
    decode_method (set_strictness true) "1.0e23".data =
      .ok (.num (.floatLit "1.0e23" 1)) ∧
    decode_method (set_strictness true) "1e+23".data =
      .ok (.num (.int 100000000000000000000000)) ∧
    (100000000000000000000000 : Int) = 10 ^ 23 := by
  refine ⟨rfl, rfl, by norm_num⟩

/-- C6 (counterexample): the byte string `[0x07]` matches no BOM and none of
the RFC 4627 null-byte patterns, and its first byte is in the ASCII range,
yet `auto_detect_encoding` raises a decode error instead of returning UTF-8
(the code requires the first byte to be at least `\t` = 0x09). -/
theorem claim_C6_counterexample :
    auto_detect_encoding [0x07] =
      .error (.decodeError "Can not determine the Unicode encoding for this JSON document") ∧
    (0x07 : Nat) ≤ 127 ∧
    ¬([0x07] : List Nat).take 4 = BOM_UTF32_LE ∧
    ¬([0x07] : List Nat).take 4 = BOM_UTF32_BE ∧
    ¬([0x07] : List Nat).take 2 = BOM_UTF16_LE ∧
    ¬([0x07] : List Nat).take 2 = BOM_UTF16_BE ∧
    ([0x07] : List Nat).length < 2 := by
  refine ⟨rfl, by norm_num, by decide, by decide, by decide, by decide, by decide⟩

/-- C6 (amended): for a non-empty byte input matching no BOM and none of the
RFC 4627 null-byte patterns, `auto_detect_encoding` returns UTF-8 exactly
when the first byte lies between 0x09 (tab) and 0x7F inclusive, and raises a
decode error otherwise. -/
theorem claim_C6_amended (s : List Nat) (hne : s ≠ [])
    (hb1 : ¬(s.length ≥ 4 ∧ s.take 4 = BOM_UTF32_LE))
    (hb2 : ¬(s.length ≥ 4 ∧ s.take 4 = BOM_UTF32_BE))
    (hb3 : ¬(s.length ≥ 2 ∧ s.take 2 = BOM_UTF16_LE))
    (hb4 : ¬(s.length ≥ 2 ∧ s.take 2 = BOM_UTF16_BE))
    (hp1 : ¬(s.length ≥ 4 ∧ s.getD 0 0 = 0 ∧ s.getD 1 0 = 0 ∧ s.getD 2 0 = 0 ∧
      s.getD 3 0 ≠ 0))
    (hp2 : ¬(s.length ≥ 4 ∧ s.getD 0 0 ≠ 0 ∧ s.getD 1 0 = 0 ∧ s.getD 2 0 = 0 ∧
      s.getD 3 0 = 0 ∧ s.getLastD 0 = 0))
    (hp3 : ¬(s.length ≥ 2 ∧ s.getD 0 0 = 0 ∧ s.getD 1 0 ≠ 0))
    (hp4 : ¬(s.length ≥ 2 ∧ s.getD 0 0 ≠ 0 ∧ s.getD 1 0 = 0 ∧ s.getLastD 0 = 0)) :
    (9 ≤ s.getD 0 0 ∧ s.getD 0 0 ≤ 127 → auto_detect_encoding s = .ok "utf8") ∧
    (s.getD 0 0 < 9 ∨ 127 < s.getD 0 0 →
      auto_detect_encoding s =
        .error (.decodeError "Can not determine the Unicode encoding for this JSON document")) := by
  have hempty : s.isEmpty = false := by
    cases s with
    | nil => exact absurd rfl hne
    | cons a t => rfl
  have c1 : (decide (s.length ≥ 4) && (s.take 4 == BOM_UTF32_LE)) = false := by
    rw [← Bool.not_eq_true]
    intro hx
    simp only [Bool.and_eq_true, decide_eq_true_eq, beq_iff_eq] at hx
    exact hb1 hx
  have c2 : (decide (s.length ≥ 4) && (s.take 4 == BOM_UTF32_BE)) = false := by
    rw [← Bool.not_eq_true]
    intro hx
    simp only [Bool.and_eq_true, decide_eq_true_eq, beq_iff_eq] at hx
    exact hb2 hx
  have c3 : (decide (s.length ≥ 2) && (s.take 2 == BOM_UTF16_LE)) = false := by
    rw [← Bool.not_eq_true]
    intro hx
    simp only [Bool.and_eq_true, decide_eq_true_eq, beq_iff_eq] at hx
    exact hb3 hx
  have c4 : (decide (s.length ≥ 2) && (s.take 2 == BOM_UTF16_BE)) = false := by
    rw [← Bool.not_eq_true]
    intro hx
    simp only [Bool.and_eq_true, decide_eq_true_eq, beq_iff_eq] at hx
    exact hb4 hx
  have p1 : (decide (s.length ≥ 4) && (s.getD 0 0 == 0) && (s.getD 1 0 == 0) &&
      (s.getD 2 0 == 0) && (s.getD 3 0 != 0)) = false := by
    rw [← Bool.not_eq_true]
    intro hx
    simp only [Bool.and_eq_true, decide_eq_true_eq, beq_iff_eq, bne_iff_ne] at hx
    exact hp1 ⟨hx.1.1.1.1, hx.1.1.1.2, hx.1.1.2, hx.1.2, hx.2⟩
  have p2 : (decide (s.length ≥ 4) && (s.getD 0 0 != 0) && (s.getD 1 0 == 0) &&
      (s.getD 2 0 == 0) && (s.getD 3 0 == 0) && (s.getLastD 0 == 0)) = false := by
    rw [← Bool.not_eq_true]
    intro hx
    simp only [Bool.and_eq_true, decide_eq_true_eq, beq_iff_eq, bne_iff_ne] at hx
    exact hp2 ⟨hx.1.1.1.1.1, hx.1.1.1.1.2, hx.1.1.1.2, hx.1.1.2, hx.1.2, hx.2⟩
  have p3 : (decide (s.length ≥ 2) && (s.getD 0 0 == 0) && (s.getD 1 0 != 0)) = false := by
    rw [← Bool.not_eq_true]
    intro hx
    simp only [Bool.and_eq_true, decide_eq_true_eq, beq_iff_eq, bne_iff_ne] at hx
    exact hp3 ⟨hx.1.1, hx.1.2, hx.2⟩
  have p4 : (decide (s.length ≥ 2) && (s.getD 0 0 != 0) && (s.getD 1 0 == 0) &&
      (s.getLastD 0 == 0)) = false := by
    rw [← Bool.not_eq_true]
    intro hx
    simp only [Bool.and_eq_true, decide_eq_true_eq, beq_iff_eq, bne_iff_ne] at hx
    exact hp4 ⟨hx.1.1.1, hx.1.1.2, hx.1.2, hx.2⟩
  constructor
  · rintro ⟨hlo, hhi⟩
    have ha : (decide ('\t'.toNat ≤ s.getD 0 0) && decide (s.getD 0 0 ≤ 127)) = true := by
      simp only [Bool.and_eq_true, decide_eq_true_eq]
      exact ⟨hlo, hhi⟩
    simp only [auto_detect_encoding, hempty, c1, c2, c3, c4, p1, p2, p3, p4, ha,
      Bool.false_eq_true, if_false, if_true]
    rfl
  · intro hout
    have ha : (decide ('\t'.toNat ≤ s.getD 0 0) && decide (s.getD 0 0 ≤ 127)) = false := by
      have h9 : '\t'.toNat = 9 := rfl
      rw [Bool.and_eq_false_iff]
      rcases hout with h | h
      · exact Or.inl (by rw [decide_eq_false_iff_not, h9]; omega)
      · exact Or.inr (by rw [decide_eq_false_iff_not]; omega)
    simp only [auto_detect_encoding, hempty, c1, c2, c3, c4, p1, p2, p3, p4, ha,
      Bool.false_eq_true, if_false]
    rfl

/-- C6 (amended, witness): the single byte `A` detects as UTF-8, and the
single byte `0x07` is refused. -/
theorem claim_C6_amended_witness :
    auto_detect_encoding [0x41] = .ok "utf8" ∧
    auto_detect_encoding [0x07] =
      .error (.decodeError "Can not determine the Unicode encoding for this JSON document") := by
  constructor
  · exact (claim_C6_amended [0x41] (by decide) (by decide) (by decide) (by decide)
      (by decide) (by decide) (by decide) (by decide) (by decide)).1 (by decide)
  · exact (claim_C6_amended [0x07] (by decide) (by decide) (by decide) (by decide)
      (by decide) (by decide) (by decide) (by decide) (by decide)).2 (by decide)

/-- C5: `utf32.decode` with no BOM and no endianness argument uses the
platform byte order (`sys.byteorder`), not the big-endian default that its
own documentation promises: on a little-endian platform the bytes
`00 00 00 41` are rejected as the invalid code point U+41000000, while on a
big-endian platform they decode to `"A"`.  The length check is as documented:
any input whose length after the BOM is not a multiple of four is refused
with a decoding error. -/
theorem claim_C5_utf32_decode :
    utf32_decode .little [0, 0, 0, 0x41] =
      .error (.unicodeDecodeError "Invalid code point U+41000000") ∧
    utf32_decode .big [0, 0, 0, 0x41] = .ok ("A", 4) ∧
    (∀ (sysbo : Endian) (obj : List Nat) (errors : ErrMode) (endi : Option Endian),
      (obj.length -
        (if BOM_UTF32_BE.isPrefixOf obj || BOM_UTF32_LE.isPrefixOf obj then 4 else 0))
          % 4 ≠ 0 →
      ∃ msg, utf32_decode sysbo obj errors endi = .error (.unicodeDecodeError msg)) := by
  refine ⟨rfl, rfl, ?_⟩
  intro sysbo obj errors endi hmod
  by_cases hbe : BOM_UTF32_BE <+: obj
  · have hbe' : BOM_UTF32_BE.isPrefixOf obj = true := by
      rw [List.isPrefixOf_iff_prefix]; exact hbe
    have hmod' : (obj.length - 4) % 4 ≠ 0 := by
      simpa [hbe'] using hmod
    have hbeu : ([0, 0, 254, 255] : List Nat) <+: obj := hbe
    rcases endi with _ | e
    · refine ⟨"Data length not a multiple of 4 bytes", ?_⟩
      simp [utf32_decode, hbeu, hmod', BOM_UTF32_BE, BOM_UTF32_LE]
      try rfl
    · by_cases heq : (e != Endian.big) = true
      · refine ⟨"BOM does not match expected byte order", ?_⟩
        simp [utf32_decode, hbeu, heq, BOM_UTF32_BE, BOM_UTF32_LE]
        try rfl
      · refine ⟨"Data length not a multiple of 4 bytes", ?_⟩
        simp [utf32_decode, hbeu, heq, hmod', BOM_UTF32_BE, BOM_UTF32_LE]
        try rfl
  · by_cases hle : BOM_UTF32_LE <+: obj
    · have hle' : BOM_UTF32_LE.isPrefixOf obj = true := by
        rw [List.isPrefixOf_iff_prefix]; exact hle
      have hmod' : (obj.length - 4) % 4 ≠ 0 := by
        have hbe' : BOM_UTF32_BE.isPrefixOf obj = false := by
          rw [← Bool.not_eq_true, List.isPrefixOf_iff_prefix]; exact hbe
        simpa [hbe', hle'] using hmod
      have hbeu : ¬(([0, 0, 254, 255] : List Nat) <+: obj) := hbe
      have hleu : ([255, 254, 0, 0] : List Nat) <+: obj := hle
      rcases endi with _ | e
      · refine ⟨"Data length not a multiple of 4 bytes", ?_⟩
        simp [utf32_decode, hbeu, hleu, hmod', BOM_UTF32_BE, BOM_UTF32_LE]
        try rfl
      · by_cases heq : (e != Endian.little) = true
        · refine ⟨"BOM does not match expected byte order", ?_⟩
          simp [utf32_decode, hbeu, hleu, heq, BOM_UTF32_BE, BOM_UTF32_LE]
          try rfl
        · refine ⟨"Data length not a multiple of 4 bytes", ?_⟩
          simp [utf32_decode, hbeu, hleu, heq, hmod', BOM_UTF32_BE, BOM_UTF32_LE]
          try rfl
    · have hbe' : BOM_UTF32_BE.isPrefixOf obj = false := by
        rw [← Bool.not_eq_true, List.isPrefixOf_iff_prefix]; exact hbe
      have hle' : BOM_UTF32_LE.isPrefixOf obj = false := by
        rw [← Bool.not_eq_true, List.isPrefixOf_iff_prefix]; exact hle
      have hmod0 : obj.length % 4 ≠ 0 := by
        simpa [hbe', hle'] using hmod
      have hbeu : ¬(([0, 0, 254, 255] : List Nat) <+: obj) := hbe
      have hleu : ¬(([255, 254, 0, 0] : List Nat) <+: obj) := hle
      refine ⟨"Data length not a multiple of 4 bytes", ?_⟩
      rcases endi with _ | e <;>
        · simp [utf32_decode, hbeu, hleu, hmod0, BOM_UTF32_BE, BOM_UTF32_LE]
          try rfl

/-- C5 (witness): three bytes (no BOM) are refused whatever the platform and
arguments. -/
theorem claim_C5_utf32_decode_witness :
    ∃ msg, utf32_decode .big [0, 0, 0x41] .strict Option.none =
      .error (.unicodeDecodeError msg) := by
  exact claim_C5_utf32_decode.2.2 .big [0, 0, 0x41] .strict Option.none (by decide)

/-! ### Lemmas about the sign-prefix scan (for C10) -/

/-- The sign of a run of `+`/`-` characters: `-1` to the power of the number
of minus signs (the product of the signs). -/
def signProduct (signs : List Char) : Int :=
  signs.foldl (fun a c => if c == '-' then -a else a) 1

theorem charAt_append_right (l1 l2 : List Char) (k : Nat) :
    charAt (l1 ++ l2) (l1.length + k) = charAt l2 k := by
  unfold charAt
  rw [List.getD_append_right _ _ _ _ (Nat.le_add_right _ _), Nat.add_sub_cancel_left]

theorem signFold_values : ∀ (signs : List Char) (init : Int),
    signs.foldl (fun a c => if c == '-' then -a else a) init = init ∨
    signs.foldl (fun a c => if c == '-' then -a else a) init = -init := by
  intro signs
  induction signs with
  | nil => intro init; exact Or.inl rfl
  | cons c cs ih =>
      intro init
      rw [List.foldl_cons]
      by_cases hc : (c == '-') = true
      · rw [hc, if_pos rfl]
        rcases ih (-init) with h | h
        · exact Or.inr h
        · exact Or.inl (by rw [h, neg_neg])
      · rw [Bool.not_eq_true] at hc
        rw [hc, if_neg (by simp)]
        exact ih init

theorem scanSigns_go_append :
    ∀ (signs pre tail : List Char) (sign : Int) (fuel : Nat),
      (∀ c ∈ signs, c = '+' ∨ c = '-') →
      (tail = [] ∨ (charAt tail 0 ≠ '+' ∧ charAt tail 0 ≠ '-')) →
      signs.length < fuel →
      scanSigns.go (pre ++ signs ++ tail) (pre ++ signs ++ tail).length pre.length
          sign fuel =
        (signs.foldl (fun a c => if c == '-' then -a else a) sign,
          pre.length + signs.length) := by
  intro signs
  induction signs with
  | nil =>
      intro pre tail sign fuel _ htail hfuel
      obtain ⟨fuel, rfl⟩ : ∃ f, fuel = f + 1 := ⟨fuel - 1, by omega⟩
      rw [show pre ++ [] ++ tail = pre ++ tail by simp]
      simp only [List.foldl_nil, List.length_nil, Nat.add_zero]
      rcases htail with rfl | ⟨h1, h2⟩
      · rw [List.append_nil]
        rw [scanSigns.go]
        rw [if_neg (by omega)]
      · have hch : charAt (pre ++ tail) pre.length = charAt tail 0 := by
          simpa using charAt_append_right pre tail 0
        have hne : (charAt (pre ++ tail) pre.length == '+' ||
            charAt (pre ++ tail) pre.length == '-') = false := by
          rw [hch]
          simp only [Bool.or_eq_false_iff, beq_eq_false_iff_ne]
          exact ⟨h1, h2⟩
        rw [scanSigns.go]
        by_cases hlt : pre.length < (pre ++ tail).length
        · rw [if_pos hlt, hne]
          rfl
        · rw [if_neg hlt]
  | cons c cs ih =>
      intro pre tail sign fuel hsigns htail hfuel
      obtain ⟨fuel, rfl⟩ : ∃ f, fuel = f + 1 := ⟨fuel - 1, by omega⟩
      have hassoc : pre ++ (c :: cs) ++ tail = (pre ++ [c]) ++ cs ++ tail := by
        simp
      have hch : charAt (pre ++ (c :: cs) ++ tail) pre.length = c := by
        have := charAt_append_right pre ((c :: cs) ++ tail) 0
        simpa [List.append_assoc] using this
      have hcsign : (charAt (pre ++ (c :: cs) ++ tail) pre.length == '+' ||
          charAt (pre ++ (c :: cs) ++ tail) pre.length == '-') = true := by
        rw [hch]
        rcases hsigns c (by simp) with h | h <;> simp [h]
      have hlt : pre.length < (pre ++ (c :: cs) ++ tail).length := by
        simp only [List.length_append, List.length_cons]
        omega
      rw [scanSigns.go]
      rw [if_pos hlt, hcsign]
      simp only [if_true]
      have ihx := ih (pre ++ [c]) tail
        (if charAt (pre ++ (c :: cs) ++ tail) pre.length == '-' then -sign else sign)
        fuel (fun x hx => hsigns x (by simp [hx])) htail
        (by simp only [List.length_cons] at hfuel; omega)
      rw [hassoc]
      rw [show pre.length + 1 = (pre ++ [c]).length by simp]
      rw [show (pre ++ [c]) ++ cs ++ tail = pre ++ [c] ++ (cs ++ tail) by simp] at ihx ⊢
      rw [show pre ++ [c] ++ (cs ++ tail) = pre ++ ([c] ++ (cs ++ tail)) by simp] at ihx ⊢
      rw [hch] at ihx
      have hch2 : charAt (pre ++ ([c] ++ (cs ++ tail))) pre.length = c := by
        rw [show pre ++ ([c] ++ (cs ++ tail)) = pre ++ c :: cs ++ tail by simp]
        exact hch
      rw [hch2, ihx, List.foldl_cons]
      simp only [Prod.mk.injEq, List.length_append, List.length_cons, List.length_nil]
      exact ⟨trivial, by omega⟩

theorem slice_append (l1 l2 : List Char) (m : Nat) :
    slice (l1 ++ l2) l1.length (l1.length + m) = l2.take m := by
  unfold slice
  rw [List.take_append, List.drop_left]

theorem char_le_of_toNat_le {a d : Char} {n : Nat} (ha : a.toNat ≤ n)
    (h : n ≤ d.toNat) : a ≤ d := by
  change a.val.toNat ≤ d.val.toNat
  exact le_trans ha h

theorem char_ne_of_toNat_ne {a b : Char} (h : a.toNat ≠ b.toNat) : a ≠ b := by
  intro he
  exact h (he ▸ rfl)

theorem pyIntParse_single {d : Char} (h1 : d ≠ '+') (h2 : d ≠ '-') :
    pyIntParse [d] = (pyNatParse [d]).map Int.ofNat := by
  unfold pyIntParse
  split
  · rename_i heq
    exact absurd (List.head_eq_of_cons_eq heq.symm).symm h1
  · rename_i heq
    exact absurd (List.head_eq_of_cons_eq heq.symm).symm h2
  · rfl

theorem pyNatParse_single {d : Char} (hdig : pyIsDigit d = true) :
    pyNatParse [d] = some (d.toNat - 48) := by
  unfold pyNatParse
  simp [hdig]

/-- C10: with `all_numeric_signs` allowed (the non-strict baseline), a number
literal may begin with any run of `+`/`-` characters, and the sign of the
decoded value is the product of the signs in that run: universally for a run
followed by a single non-zero digit, and concretely `--3` decodes to the
integer 3 and `-+-5` to the integer 5. -/
theorem claim_C10_sign_runs :
    (∀ (signs : List Char) (d : Char),
      (∀ c ∈ signs, c = '+' ∨ c = '-') →
      49 ≤ d.toNat → d.toNat ≤ 57 →
      decode_number (set_strictness false) (signs ++ [d]) 0 (signs ++ [d]).length =
        .ok (.int (Int.ofNat (d.toNat - 48) * signProduct signs),
          signs.length + 1)) ∧
    decode_method (set_strictness false) "--3".data = .ok (.num (.int 3)) ∧
    decode_method (set_strictness false) "-+-5".data = .ok (.num (.int 5)) := by
  refine ⟨?_, rfl, rfl⟩
  intro signs d hsigns hd1 hd2
  have hdnep : d ≠ '+' := char_ne_of_toNat_ne (by
    rw [show '+'.toNat = 43 from rfl]; omega)
  have hdnem : d ≠ '-' := char_ne_of_toNat_ne (by
    rw [show '-'.toNat = 45 from rfl]; omega)
  have hdig : pyIsDigit d = true := by
    unfold pyIsDigit
    simp only [Bool.and_eq_true, decide_eq_true_eq]
    exact ⟨char_le_of_toNat_le (by decide) hd1,
      le_trans (show d ≤ d from le_refl d) (by
        change d.val.toNat ≤ '9'.val.toNat
        exact le_trans hd2 (by decide))⟩
  have hchard : charAt (signs ++ [d]) signs.length = d := by
    simpa using charAt_append_right signs [d] 0
  have hlen : (signs ++ [d]).length = signs.length + 1 := by simp
  have hscan : scanSigns (signs ++ [d]) (signs ++ [d]).length 0 1 =
      (signProduct signs, signs.length) := by
    unfold scanSigns signProduct
    have := scanSigns_go_append signs [] [d] 1 ((signs ++ [d]).length + 1) hsigns
      (Or.inr ⟨by simpa [charAt] using hdnep, by simpa [charAt] using hdnem⟩)
      (by rw [hlen]; omega)
    simpa using this
  have hslice : ∀ m, slice (signs ++ [d]) signs.length (signs.length + m) =
      ([d] : List Char).take m := fun m => slice_append signs [d] m
  have hsliceNaN : (slice (signs ++ [d]) signs.length (signs.length + 3) ==
      ['N', 'a', 'N']) = false := by
    rw [hslice 3]
    simp
  unfold decode_number
  simp only [set_strictness]
  simp only [Bool.not_true, Bool.not_false, Bool.not_not]
  have hbdot : (d == '.') = false := by
    rw [beq_eq_false_iff_ne]
    exact char_ne_of_toNat_ne (by rw [show '.'.toNat = 46 from rfl]; omega)
  have hbe : (d == 'e') = false := by
    rw [beq_eq_false_iff_ne]
    exact char_ne_of_toNat_ne (by rw [show 'e'.toNat = 101 from rfl]; omega)
  have hbE : (d == 'E') = false := by
    rw [beq_eq_false_iff_ne]
    exact char_ne_of_toNat_ne (by rw [show 'E'.toNat = 69 from rfl]; omega)
  have hbp : (d == '+') = false := beq_eq_false_iff_ne.mpr hdnep
  have hbm : (d == '-') = false := beq_eq_false_iff_ne.mpr hdnem
  have hb0 : (d == '0') = false := by
    rw [beq_eq_false_iff_ne]
    exact char_ne_of_toNat_ne (by rw [show '0'.toNat = 48 from rfl]; omega)
  have hsliceInf : (slice (signs ++ [d]) signs.length (signs.length + 8) ==
      ['I', 'n', 'f', 'i', 'n', 'i', 't', 'y']) = false := by
    rw [hslice 8]; simp
  have hslice0x : (slice (signs ++ [d]) signs.length (signs.length + 2) ==
      ['0', 'x']) = false := by
    rw [hslice 2]; simp
  have hslice0X : (slice (signs ++ [d]) signs.length (signs.length + 2) ==
      ['0', 'X']) = false := by
    rw [hslice 2]; simp
  have hslice1 : slice (signs ++ [d]) signs.length (signs.length + 1) = [d] := by
    rw [hslice 1]; rfl
  rw [hscan]
  rw [hlen]
  have hocti : (decide (signs.length + 1 < signs.length + 1) &&
      (charAt (signs ++ [d]) signs.length == '0')) = false := by
    rw [decide_eq_false (Nat.lt_irrefl _), Bool.false_and]
  rw [hocti]
  have hnumScan : numScan (signs ++ [d]) (signs.length + 1) signs.length
      { k := signs.length, could_be_octal := false, decpt := Option.none,
        ept := Option.none, esign := '+', sigdigits := 0 }
      (signs.length + 1 + 1) =
      { k := signs.length + 1, could_be_octal := false, decpt := Option.none,
        ept := Option.none, esign := '+', sigdigits := 1 } := by
    rw [numScan]
    simp only [hchard, hdig, Bool.true_or, if_pos, decide_eq_true_eq,
      Nat.lt_irrefl, hbdot, hbe, hbE, hbp, hbm, Bool.or_self, Bool.false_and,
      Bool.false_or, Bool.and_false]
    rw [if_pos (by omega)]
    simp only [Bool.false_eq_true, if_false, optTruthy, Bool.not_false, if_true]
    rw [numScan]
    simp
  rw [hnumScan]
  simp only [Bool.false_and, Bool.false_eq_true, if_false, hsliceNaN, hsliceInf,
    hslice0x, hslice0X, Bool.or_self, Bool.not_true, Bool.not_false,
    Bool.not_not, Bool.and_false]
  rw [hslice1]
  have hn0 : ((Int.ofNat (d.toNat - 48) * signProduct signs) == 0) = false := by
    rw [beq_eq_false_iff_ne]
    refine mul_ne_zero ?_ ?_
    · have h48 : 1 ≤ d.toNat - 48 := by omega
      intro hz
      have h0 : d.toNat - 48 = 0 := Int.ofNat.inj hz
      omega
    · rcases signFold_values signs 1 with h | h <;>
        · unfold signProduct
          rw [h]
          decide
  simp only [List.isEmpty_cons, Bool.false_eq_true, if_false,
    show charAt [d] 0 = d from rfl, hbdot, hb0, Bool.false_and, Option.isNone_none,
    Bool.true_and, pure_bind, Option.isNone_some]
  rw [if_pos (by decide)]
  rw [show (optTruthy Option.none) = false from rfl]
  simp only [Bool.false_eq_true, if_false]
  rw [pyIntParse_single hdnep hdnem, pyNatParse_single hdig]
  rw [show Option.map Int.ofNat (some (d.toNat - 48)) = some (Int.ofNat (d.toNat - 48))
    from rfl]
  simp only [bne_self_eq_false, Bool.false_eq_true, if_false]
  simp only [hn0, Bool.false_and, Bool.false_eq_true, if_false]
  rfl

/-! ### Lemmas about chunk joining and composite layout (for C8) -/

/-- The textual join of already-encoded items with a separator: `items`
rendered with `sep` between consecutive items. -/
def joinItems (items : List String) (sep : String) : String :=
  match items with
  | [] => ""
  | [x] => x
  | x :: rest => x ++ sep ++ joinItems rest sep

theorem join_nil : String.join [] = "" := rfl

theorem join_cons (x : String) (l : List String) :
    String.join (x :: l) = x ++ String.join l := by
  rw [String.join_eq, String.join_eq]
  apply String.ext
  show (List.map String.data (x :: l)).flatten = (x ++ { data := (l.map String.data).flatten }).data
  simp

theorem join_append (a b : List String) :
    String.join (a ++ b) = String.join a ++ String.join b := by
  rw [String.join_eq, String.join_eq, String.join_eq]
  apply String.ext
  show ((a ++ b).map String.data).flatten = (a.map String.data).flatten ++ (b.map String.data).flatten
  simp

theorem join_flattenWithSep (parts : List (List String)) (sep : String) (hsep : sep ≠ "") :
    String.join (flattenWithSep parts sep) = joinItems (parts.map String.join) sep := by
  induction parts with
  | nil => rfl
  | cons p rest ih =>
      cases rest with
      | nil => rfl
      | cons q rest' =>
          show String.join (p ++ (if sep != "" then [sep] else []) ++
              flattenWithSep (q :: rest') sep) = _
          rw [if_pos (bne_iff_ne.mpr hsep), join_append, join_append, ih]
          rw [join_cons, join_nil]
          rw [show sep ++ "" = sep from by apply String.ext; simp]
          rfl

/-- A concrete host instantiation for closed evaluations; the examples it is
used with involve only integers and strings, so its values never matter. -/
def evalHost : Host where
  floatRepr := fun lit sign => (if sign < 0 then "-" else "") ++ lit
  decStr := fun lit sign => (if sign < 0 then "-" else "") ++ lit

/-- C8 (counterexample): pretty-printing the two-element array `[1, 2]`
produces `"[ 1,\n  2\n]\n"`: the character after the opening bracket is a
space, not the newline the claim requires before the first item of a
composite with more than one item. -/
theorem claim_C8_counterexample :
    encode_method evalHost
      { flags := set_strictness true, encode_compactly := false,
        encode_unicode_as_escapes := false }
      (.list [.num (.int 1), .num (.int 2)]) 9 = .ok "[ 1,\n  2\n]\n" ∧
    ([PyVal.num (.int 1), PyVal.num (.int 2)].length > 1) ∧
    "[ 1,\n  2\n]\n".data.getD 1 ' ' = ' ' ∧ (' ' ≠ '\n') := by
  exact ⟨rfl, by decide, rfl, by decide⟩

/-- C8 (amended): in compact mode a composite is the opener, the items joined
by a bare `,` (and `:` between key and value), and the closer — no added
space characters; in pretty mode the opener is followed by one space (not a
newline) before the first item, each further item is preceded by a newline
and a two-space-per-level indent, and the closing bracket is preceded by a
newline and the outer indent exactly when there is more than one item (a
single space otherwise). -/
theorem claim_C8_amended :
    ∀ (h : Host) (inst : Inst) (nest fuel : Nat),
      (∀ (xs : List PyVal) (chunks : List (List String)),
        encode_seq_items h inst xs nest fuel = .ok chunks →
        (inst.encode_compactly = true →
          (encode_composite_list h inst xs nest (fuel + 1)).map String.join =
            .ok ("[" ++ joinItems (chunks.map String.join) "," ++ "]")) ∧
        (inst.encode_compactly = false →
          (encode_composite_list h inst xs nest (fuel + 1)).map String.join =
            .ok ("[" ++ " " ++
              joinItems (chunks.map String.join)
                (",\n" ++ String.mk (List.replicate (2 * (nest + 1)) ' ')) ++
              (if xs.length > 1
                then "\n" ++ String.mk (List.replicate (2 * nest) ' ')
                else " ") ++ "]"))) ∧
      (∀ (es : List (PyVal × PyVal)) (chunks : List (List String)),
        inst.sort_dictionary_keys = true →
        encode_dict_items h inst es nest
            (if inst.encode_compactly then ":" else " : ") fuel = .ok chunks →
        (inst.encode_compactly = true →
          (encode_composite_dict h inst es nest (fuel + 1)).map String.join =
            .ok ("\x7b" ++ joinItems ((pySort chunks).map String.join) "," ++ "\x7d")) ∧
        (inst.encode_compactly = false →
          (encode_composite_dict h inst es nest (fuel + 1)).map String.join =
            .ok ("\x7b" ++ " " ++
              joinItems ((pySort chunks).map String.join)
                (",\n" ++ String.mk (List.replicate (2 * (nest + 1)) ' ')) ++
              (if es.length > 1
                then "\n" ++ String.mk (List.replicate (2 * nest) ' ')
                else " ") ++ "\x7d"))) := by
  intro h inst nest fuel
  constructor
  · intro xs chunks hseq
    constructor
    · intro hc
      rw [encode_composite_list]
      simp only [hc, if_true, hseq]
      simp only [Except.bind, Except.map, bind, pure, Except.pure]
      rw [join_append, join_append, join_cons, join_nil, join_cons, join_nil,
        join_flattenWithSep chunks "," (by decide)]
      apply congrArg
      apply String.ext
      simp
    · intro hc
      rw [encode_composite_list]
      simp only [hc, Bool.false_eq_true, if_false, hseq]
      simp only [Except.bind, Except.map, bind, pure, Except.pure]
      rw [join_append, join_append,
        join_flattenWithSep chunks _ (by
          intro hx
          have := congrArg String.data hx
          simp at this)]
      by_cases hgt : xs.length > 1
      · rw [if_pos hgt, if_pos hgt]
        rw [join_cons, join_cons, join_nil, join_cons, join_cons, join_nil]
        apply congrArg
        apply String.ext
        simp
      · rw [if_neg hgt, if_neg hgt]
        rw [join_cons, join_cons, join_nil, join_cons, join_cons, join_nil]
        apply congrArg
        apply String.ext
        simp
  · intro es chunks hsort hdict
    constructor
    · intro hc
      rw [hc, if_pos rfl] at hdict
      rw [encode_composite_dict]
      simp only [hc, if_true, hdict, hsort]
      simp only [Except.bind, Except.map, bind, pure, Except.pure]
      rw [join_append, join_append, join_cons, join_nil, join_cons, join_nil,
        join_flattenWithSep (pySort chunks) "," (by decide)]
      apply congrArg
      apply String.ext
      simp
    · intro hc
      rw [hc, if_neg (by simp)] at hdict
      rw [encode_composite_dict]
      simp only [hc, Bool.false_eq_true, if_false, hdict, hsort, if_true]
      simp only [Except.bind, Except.map, bind, pure, Except.pure]
      rw [join_append, join_append,
        join_flattenWithSep (pySort chunks) _ (by
          intro hx
          have := congrArg String.data hx
          simp at this)]
      by_cases hgt : es.length > 1
      · rw [if_pos hgt, if_pos hgt]
        rw [join_cons, join_cons, join_nil, join_cons, join_cons, join_nil]
        apply congrArg
        apply String.ext
        simp
      · rw [if_neg hgt, if_neg hgt]
        rw [join_cons, join_cons, join_nil, join_cons, join_cons, join_nil]
        apply congrArg
        apply String.ext
        simp

/-- C8 (amended, witness): the layout at `[1, 2]` pretty-printed and the
object `{"b": 2, "a": 1}` compactly encoded (keys sorted). -/
theorem claim_C8_amended_witness :
    (encode_composite_list evalHost
        { flags := set_strictness true, encode_compactly := false,
          encode_unicode_as_escapes := false }
        [.num (.int 1), .num (.int 2)] 0 9).map String.join =
      .ok "[ 1,\n  2\n]" ∧
    (encode_composite_dict evalHost
        { flags := set_strictness true, encode_compactly := true,
          encode_unicode_as_escapes := false }
        [(.str "b", .num (.int 2)), (.str "a", .num (.int 1))] 0 9).map String.join =
      .ok "\x7b\x22a\x22:1,\x22b\x22:2\x7d" := by
  constructor
  · have h1 := ((claim_C8_amended evalHost
      { flags := set_strictness true, encode_compactly := false,
        encode_unicode_as_escapes := false } 0 8).1
      [.num (.int 1), .num (.int 2)] [["1"], ["2"]] rfl).2 rfl
    exact h1.trans (by rfl)
  · have h2 := ((claim_C8_amended evalHost
      { flags := set_strictness true, encode_compactly := true,
        encode_unicode_as_escapes := false } 0 8).2
      [(.str "b", .num (.int 2)), (.str "a", .num (.int 1))]
      [["\"b\"", ":", "2"], ["\"a\"", ":", "1"]] rfl rfl).1 rfl
    exact h2.trans (by rfl)


theorem c3_pair_combine
    (f : Flags) (s : List Char) (imax i : Nat) (closer : Char)
    (chunks : List String) (fuel : Nat) (hi lo : Nat)
    (hcl : closer ≠ '\\')
    (h0 : charAt s i = '\\') (h1 : charAt s (i + 1) = 'u')
    (hlt : i + 6 < imax)
    (hhex : decode_hex (slice s (i + 2) (i + 6)) = .ok lo)
    (hhi1 : 0xD800 ≤ hi) (hhi2 : hi ≤ 0xDBFF)
    (hlo1 : 0xDC00 ≤ lo) (hlo2 : lo ≤ 0xDFFF) :
    decode_string_loop f s imax closer i chunks (some hi) (fuel + 1) =
      decode_string_loop f s imax closer (i + 6)
        (chunks ++ [String.singleton (Char.ofNat
          ((((hi - 0xD800) <<< 10) ||| (lo - 0xDC00)) + 0x10000))])
        Option.none fuel := by
  have him : (i < imax) = True := eq_true (by omega)
  have hge1 : (i + 1 ≥ imax) = False := eq_false (by omega)
  have hge6 : (i + 1 + 1 + 4 ≥ imax) = False := eq_false (by omega)
  have hclb : (('\\' : Char) == closer) = false := beq_eq_false_iff_ne.mpr (Ne.symm hcl)
  have e1 : (hi < 0xD800) = False := eq_false (by omega)
  have e2 : (hi > 0xDBFF) = False := eq_false (by omega)
  have e3 : (lo < 0xDC00) = False := eq_false (by omega)
  have e4 : (lo > 0xDFFF) = False := eq_false (by omega)
  simp only [decode_string_loop, h0, h1, him, hge1, hge6, hclb, e1, e2, e3, e4,
    surrogate_pair_as_unicode,
    show (('\\' : Char) == '\\') = true from rfl,
    show (('u' : Char) == 'u') = true from rfl,
    show (('u' : Char) == 'x') = false from rfl,
    show is_octal_digit 'u' = false from rfl,
    show escapes_js 'u' = Option.none from rfl,
    show escapes_json 'u' = Option.none from rfl,
    show i + 1 + 1 = i + 2 from rfl,
    show i + 2 + 4 = i + 6 from rfl,
    decide_False, decide_True, Option.isSome_some, Bool.true_and, Bool.false_and,
    Bool.and_true, Bool.and_false, Bool.or_false, Bool.false_or, Bool.not_true,
    Bool.not_false, Bool.false_eq_true, if_true, if_false, ite_self, ite_true, ite_false,
    Bool.ite_eq_true_distrib]
  simp only [hhex, Except.bind, Except.map, bind, pure, Except.pure]
  simp only [e3, e4, decide_False, Bool.or_false, Bool.false_or, Bool.false_eq_true, if_false]
  try rfl

theorem c3_pair_illegal
    (f : Flags) (s : List Char) (imax i : Nat) (closer : Char)
    (chunks : List String) (fuel : Nat) (hi lo : Nat)
    (hcl : closer ≠ '\\')
    (h0 : charAt s i = '\\') (h1 : charAt s (i + 1) = 'u')
    (hlt : i + 6 < imax)
    (hhex : decode_hex (slice s (i + 2) (i + 6)) = .ok lo)
    (hhi1 : 0xD800 ≤ hi) (hhi2 : hi ≤ 0xDBFF)
    (hlo : lo < 0xDC00 ∨ 0xDFFF < lo) :
    decode_string_loop f s imax closer i chunks (some hi) (fuel + 1) =
      .error (.decodeError "illegal Unicode surrogate pair") := by
  have him : (i < imax) = True := eq_true (by omega)
  have hge1 : (i + 1 ≥ imax) = False := eq_false (by omega)
  have hge6 : (i + 1 + 1 + 4 ≥ imax) = False := eq_false (by omega)
  have hclb : (('\\' : Char) == closer) = false := beq_eq_false_iff_ne.mpr (Ne.symm hcl)
  have e1 : (hi < 0xD800) = False := eq_false (by omega)
  have e2 : (hi > 0xDBFF) = False := eq_false (by omega)
  have e34 : (decide (lo < 0xDC00) || decide (lo > 0xDFFF)) = true := by
    rcases hlo with h | h <;> simp [h]
  simp only [decode_string_loop, h0, h1, him, hge1, hge6, hclb, e1, e2,
    surrogate_pair_as_unicode,
    show (('\\' : Char) == '\\') = true from rfl,
    show (('u' : Char) == 'u') = true from rfl,
    show (('u' : Char) == 'x') = false from rfl,
    show is_octal_digit 'u' = false from rfl,
    show escapes_js 'u' = Option.none from rfl,
    show escapes_json 'u' = Option.none from rfl,
    show i + 1 + 1 = i + 2 from rfl,
    show i + 2 + 4 = i + 6 from rfl,
    decide_False, decide_True, Option.isSome_some, Bool.true_and, Bool.false_and,
    Bool.and_true, Bool.and_false, Bool.or_false, Bool.false_or, Bool.not_true,
    Bool.not_false, Bool.false_eq_true, if_true, if_false, ite_self, ite_true, ite_false]
  simp only [hhex, Except.bind, Except.map, bind, pure, Except.pure]
  simp only [e34, if_true]
  try rfl

theorem c3_high_detect_continue
    (f : Flags) (s : List Char) (imax i : Nat) (closer : Char)
    (chunks : List String) (fuel : Nat) (n : Nat)
    (hcl : closer ≠ '\\')
    (h0 : charAt s i = '\\') (h1 : charAt s (i + 1) = 'u')
    (hhex : decode_hex (slice s (i + 2) (i + 6)) = .ok n)
    (hn1 : 0xD800 ≤ n) (hn2 : n ≤ 0xDBFF)
    (h8 : i + 8 ≤ imax)
    (h6 : charAt s (i + 6) = '\\') (h7 : charAt s (i + 7) = 'u') :
    decode_string_loop f s imax closer i chunks Option.none (fuel + 1) =
      decode_string_loop f s imax closer (i + 6) chunks (some n) fuel := by
  have him : (i < imax) = True := eq_true (by omega)
  have hge1 : (i + 1 ≥ imax) = False := eq_false (by omega)
  have hge6 : (i + 1 + 1 + 4 ≥ imax) = False := eq_false (by omega)
  have hclb : (('\\' : Char) == closer) = false := beq_eq_false_iff_ne.mpr (Ne.symm hcl)
  have e0 : (n < 128) = False := eq_false (by omega)
  have e1 : (0xd800 ≤ n) = True := eq_true (by omega)
  have e2 : (n ≤ 0xdbff) = True := eq_true (by omega)
  have e8 : (imax < i + 6 + 2) = False := eq_false (by omega)
  simp only [decode_string_loop, h0, h1, him, hge1, hge6, hclb, e0, e1, e2,
    show (('\\' : Char) == '\\') = true from rfl,
    show (('u' : Char) == 'u') = true from rfl,
    show (('u' : Char) == 'x') = false from rfl,
    show is_octal_digit 'u' = false from rfl,
    show escapes_js 'u' = Option.none from rfl,
    show escapes_json 'u' = Option.none from rfl,
    show i + 1 + 1 = i + 2 from rfl,
    show i + 2 + 4 = i + 6 from rfl,
    show i + 6 + 1 = i + 7 from rfl,
    decide_False, decide_True, Option.isSome_none, Bool.true_and, Bool.false_and,
    Bool.and_true, Bool.and_false, Bool.or_false, Bool.false_or, Bool.not_true,
    Bool.not_false, Bool.false_eq_true, if_true, if_false, ite_self, ite_true, ite_false]
  simp only [hhex, Except.bind, Except.map, bind, pure, Except.pure]
  simp only [e8, h6, h7, decide_False, Bool.false_or,
    show (('\\' : Char) != '\\') = false from rfl,
    show (('u' : Char) != 'u') = false from rfl,
    Bool.or_false, Bool.false_eq_true, if_false]
  try rfl
  simp only [e0, e1, e2, decide_True, decide_False, Bool.true_and, Bool.and_true,
    if_false, if_true, ite_true, ite_false]
  try rfl

theorem c3_high_detect_error
    (f : Flags) (s : List Char) (imax i : Nat) (closer : Char)
    (chunks : List String) (fuel : Nat) (n : Nat)
    (hcl : closer ≠ '\\')
    (h0 : charAt s i = '\\') (h1 : charAt s (i + 1) = 'u')
    (hlt : i + 6 < imax)
    (hhex : decode_hex (slice s (i + 2) (i + 6)) = .ok n)
    (hn1 : 0xD800 ≤ n) (hn2 : n ≤ 0xDBFF)
    (hbad : imax < i + 8 ∨ charAt s (i + 6) ≠ '\\' ∨ charAt s (i + 7) ≠ 'u') :
    decode_string_loop f s imax closer i chunks Option.none (fuel + 1) =
      .error (.decodeError
        "High unicode surrogate must be followed by a low surrogate") := by
  have him : (i < imax) = True := eq_true (by omega)
  have hge1 : (i + 1 ≥ imax) = False := eq_false (by omega)
  have hge6 : (i + 1 + 1 + 4 ≥ imax) = False := eq_false (by omega)
  have hclb : (('\\' : Char) == closer) = false := beq_eq_false_iff_ne.mpr (Ne.symm hcl)
  have e0 : (n < 128) = False := eq_false (by omega)
  have e1 : (0xd800 ≤ n) = True := eq_true (by omega)
  have e2 : (n ≤ 0xdbff) = True := eq_true (by omega)
  have hbcond : (decide (imax < i + 6 + 2) || charAt s (i + 6) != '\\' ||
      charAt s (i + 6 + 1) != 'u') = true := by
    rcases hbad with h | h | h
    · simp only [Bool.or_eq_true, decide_eq_true_eq]
      left; left; omega
    · simp only [Bool.or_eq_true, bne_iff_ne]
      left; right; exact h
    · simp only [Bool.or_eq_true, bne_iff_ne]
      right
      exact (show i + 6 + 1 = i + 7 from rfl) ▸ h
  simp only [decode_string_loop, h0, h1, him, hge1, hge6, hclb, e0, e1, e2,
    show (('\\' : Char) == '\\') = true from rfl,
    show (('u' : Char) == 'u') = true from rfl,
    show (('u' : Char) == 'x') = false from rfl,
    show is_octal_digit 'u' = false from rfl,
    show escapes_js 'u' = Option.none from rfl,
    show escapes_json 'u' = Option.none from rfl,
    show i + 1 + 1 = i + 2 from rfl,
    show i + 2 + 4 = i + 6 from rfl,
    decide_False, decide_True, Option.isSome_none, Bool.true_and, Bool.false_and,
    Bool.and_true, Bool.and_false, Bool.or_false, Bool.false_or, Bool.not_true,
    Bool.not_false, Bool.false_eq_true, if_true, if_false, ite_self, ite_true, ite_false]
  simp only [hhex, Except.bind, Except.map, bind, pure, Except.pure]
  simp only [e0, e1, e2, decide_True, decide_False, Bool.true_and, Bool.and_true,
    if_false, if_true, ite_true, ite_false]
  simp only [hbcond, if_true]
  try rfl

theorem c3_lone_low
    (f : Flags) (s : List Char) (imax i : Nat) (closer : Char)
    (chunks : List String) (fuel : Nat) (n : Nat)
    (hcl : closer ≠ '\\')
    (h0 : charAt s i = '\\') (h1 : charAt s (i + 1) = 'u')
    (hlt : i + 6 < imax)
    (hhex : decode_hex (slice s (i + 2) (i + 6)) = .ok n)
    (hn1 : 0xDC00 ≤ n) (hn2 : n ≤ 0xDFFF) :
    decode_string_loop f s imax closer i chunks Option.none (fuel + 1) =
      .error (.decodeError
        "Low unicode surrogate must be proceeded by a high surrogate") := by
  have him : (i < imax) = True := eq_true (by omega)
  have hge1 : (i + 1 ≥ imax) = False := eq_false (by omega)
  have hge6 : (i + 1 + 1 + 4 ≥ imax) = False := eq_false (by omega)
  have hclb : (('\\' : Char) == closer) = false := beq_eq_false_iff_ne.mpr (Ne.symm hcl)
  have e0 : (n < 128) = False := eq_false (by omega)
  have e2 : (n ≤ 0xdbff) = False := eq_false (by omega)
  have e3 : (0xdc00 ≤ n) = True := eq_true (by omega)
  have e4 : (n ≤ 0xdfff) = True := eq_true (by omega)
  simp only [decode_string_loop, h0, h1, him, hge1, hge6, hclb, e0, e2, e3, e4,
    show (('\\' : Char) == '\\') = true from rfl,
    show (('u' : Char) == 'u') = true from rfl,
    show (('u' : Char) == 'x') = false from rfl,
    show is_octal_digit 'u' = false from rfl,
    show escapes_js 'u' = Option.none from rfl,
    show escapes_json 'u' = Option.none from rfl,
    show i + 1 + 1 = i + 2 from rfl,
    show i + 2 + 4 = i + 6 from rfl,
    decide_False, decide_True, Option.isSome_none, Bool.true_and, Bool.false_and,
    Bool.and_true, Bool.and_false, Bool.or_false, Bool.false_or, Bool.not_true,
    Bool.not_false, Bool.false_eq_true, if_true, if_false, ite_self, ite_true, ite_false]
  simp only [hhex, Except.bind, Except.map, bind, pure, Except.pure]
  simp only [e0, e2, e3, e4, decide_True, decide_False, Bool.true_and, Bool.and_true,
    Bool.and_false, if_false, if_true, ite_true, ite_false]
  try rfl

theorem c3_loop_top_error
    (f : Flags) (s : List Char) (imax i : Nat) (closer : Char)
    (chunks : List String) (fuel : Nat) (hi : Nat)
    (him0 : i < imax)
    (hbad : i + 1 ≥ imax ∨ ¬(charAt s i = '\\' ∧ charAt s (i + 1) = 'u')) :
    decode_string_loop f s imax closer i chunks (some hi) (fuel + 1) =
      .error (.decodeError
        "High unicode surrogate must be followed by a low surrogate") := by
  have him : (i < imax) = True := eq_true him0
  have hbcond : (decide (i + 1 ≥ imax) ||
      !(charAt s i == '\\' && charAt s (i + 1) == 'u')) = true := by
    rcases hbad with h | h
    · simp only [Bool.or_eq_true, decide_eq_true_eq]
      left; exact h
    · simp only [Bool.or_eq_true, Bool.not_eq_true', Bool.and_eq_false_iff,
        beq_eq_false_iff_ne]
      right
      by_cases hc : charAt s i = '\\'
      · right; intro hu; exact h ⟨hc, hu⟩
      · left; exact hc
  simp only [decode_string_loop, him, Option.isSome_some, Bool.true_and, hbcond,
    if_true, ite_true]
  try rfl


/-- C3: in `decode_string`, a `\uXXXX` escape in the high-surrogate range
(U+D800 to U+DBFF) succeeds exactly when it is immediately followed by another
`\uXXXX` escape in the low-surrogate range (U+DC00 to U+DFFF), in which case
the pair contributes the single code point
`((hi - 0xD800) <<< 10 ||| (lo - 0xDC00)) + 0x10000`; concretely, the
two-escape literal of D834 then DD1E decodes to the one code point U+1D11E
(the symbol 𝄞) in both modes.  A
`\uXXXX` escape in the low-surrogate range with no pending high surrogate is a
decode error, as is a high surrogate whose follower is a `\u` escape with a
non-low value, a `\u` follower not in place at all, or any other character
while a high surrogate is pending. -/
theorem claim_C3_surrogate_pairs :
    (∀ strict : Bool,
      decode_string (set_strictness strict) "\"\\uD834\\uDD1E\"".data 0 14 =
        .ok (String.singleton (Char.ofNat 0x1D11E), 14)) ∧
    ((0x1D11E : Nat) = (((0xD834 - 0xD800) <<< 10) ||| (0xDD1E - 0xDC00)) + 0x10000) ∧
    (∀ (f : Flags) (s : List Char) (imax i : Nat) (closer : Char)
        (chunks : List String) (fuel : Nat) (n : Nat),
      closer ≠ '\\' →
      charAt s i = '\\' → charAt s (i + 1) = 'u' →
      decode_hex (slice s (i + 2) (i + 6)) = .ok n →
      0xD800 ≤ n → n ≤ 0xDBFF →
      i + 8 ≤ imax → charAt s (i + 6) = '\\' → charAt s (i + 7) = 'u' →
      decode_string_loop f s imax closer i chunks Option.none (fuel + 1) =
        decode_string_loop f s imax closer (i + 6) chunks (some n) fuel) ∧
    (∀ (f : Flags) (s : List Char) (imax i : Nat) (closer : Char)
        (chunks : List String) (fuel : Nat) (n : Nat),
      closer ≠ '\\' →
      charAt s i = '\\' → charAt s (i + 1) = 'u' →
      i + 6 < imax →
      decode_hex (slice s (i + 2) (i + 6)) = .ok n →
      0xD800 ≤ n → n ≤ 0xDBFF →
      (imax < i + 8 ∨ charAt s (i + 6) ≠ '\\' ∨ charAt s (i + 7) ≠ 'u') →
      decode_string_loop f s imax closer i chunks Option.none (fuel + 1) =
        .error (.decodeError
          "High unicode surrogate must be followed by a low surrogate")) ∧
    (∀ (f : Flags) (s : List Char) (imax i : Nat) (closer : Char)
        (chunks : List String) (fuel : Nat) (hi lo : Nat),
      closer ≠ '\\' →
      charAt s i = '\\' → charAt s (i + 1) = 'u' →
      i + 6 < imax →
      decode_hex (slice s (i + 2) (i + 6)) = .ok lo →
      0xD800 ≤ hi → hi ≤ 0xDBFF →
      0xDC00 ≤ lo → lo ≤ 0xDFFF →
      decode_string_loop f s imax closer i chunks (some hi) (fuel + 1) =
        decode_string_loop f s imax closer (i + 6)
          (chunks ++ [String.singleton (Char.ofNat
            ((((hi - 0xD800) <<< 10) ||| (lo - 0xDC00)) + 0x10000))])
          Option.none fuel) ∧
    (∀ (f : Flags) (s : List Char) (imax i : Nat) (closer : Char)
        (chunks : List String) (fuel : Nat) (hi lo : Nat),
      closer ≠ '\\' →
      charAt s i = '\\' → charAt s (i + 1) = 'u' →
      i + 6 < imax →
      decode_hex (slice s (i + 2) (i + 6)) = .ok lo →
      0xD800 ≤ hi → hi ≤ 0xDBFF →
      (lo < 0xDC00 ∨ 0xDFFF < lo) →
      decode_string_loop f s imax closer i chunks (some hi) (fuel + 1) =
        .error (.decodeError "illegal Unicode surrogate pair")) ∧
    (∀ (f : Flags) (s : List Char) (imax i : Nat) (closer : Char)
        (chunks : List String) (fuel : Nat) (n : Nat),
      closer ≠ '\\' →
      charAt s i = '\\' → charAt s (i + 1) = 'u' →
      i + 6 < imax →
      decode_hex (slice s (i + 2) (i + 6)) = .ok n →
      0xDC00 ≤ n → n ≤ 0xDFFF →
      decode_string_loop f s imax closer i chunks Option.none (fuel + 1) =
        .error (.decodeError
          "Low unicode surrogate must be proceeded by a high surrogate")) ∧
    (∀ (f : Flags) (s : List Char) (imax i : Nat) (closer : Char)
        (chunks : List String) (fuel : Nat) (hi : Nat),
      i < imax →
      (i + 1 ≥ imax ∨ ¬(charAt s i = '\\' ∧ charAt s (i + 1) = 'u')) →
      decode_string_loop f s imax closer i chunks (some hi) (fuel + 1) =
        .error (.decodeError
          "High unicode surrogate must be followed by a low surrogate")) := by
  refine ⟨?_, by decide, ?_, ?_, ?_, ?_, ?_, ?_⟩
  · intro strict; cases strict <;> rfl
  · intro f s imax i closer chunks fuel n hcl h0 h1 hhex hn1 hn2 h8 h6 h7
    exact c3_high_detect_continue f s imax i closer chunks fuel n hcl h0 h1 hhex hn1 hn2 h8 h6 h7
  · intro f s imax i closer chunks fuel n hcl h0 h1 hlt hhex hn1 hn2 hbad
    exact c3_high_detect_error f s imax i closer chunks fuel n hcl h0 h1 hlt hhex hn1 hn2 hbad
  · intro f s imax i closer chunks fuel hi lo hcl h0 h1 hlt hhex hhi1 hhi2 hlo1 hlo2
    exact c3_pair_combine f s imax i closer chunks fuel hi lo hcl h0 h1 hlt hhex hhi1 hhi2 hlo1 hlo2
  · intro f s imax i closer chunks fuel hi lo hcl h0 h1 hlt hhex hhi1 hhi2 hlo
    exact c3_pair_illegal f s imax i closer chunks fuel hi lo hcl h0 h1 hlt hhex hhi1 hhi2 hlo
  · intro f s imax i closer chunks fuel n hcl h0 h1 hlt hhex hn1 hn2
    exact c3_lone_low f s imax i closer chunks fuel n hcl h0 h1 hlt hhex hn1 hn2
  · intro f s imax i closer chunks fuel hi him0 hbad
    exact c3_loop_top_error f s imax i closer chunks fuel hi him0 hbad


/-! ### Strict-to-non-strict simulation (claim C2) -/

/-- Position `j` is a safe stopping point for the non-strict whitespace
skipper: either past `imax`, or a character that is neither extended
whitespace nor the start of a comment. -/
def nsStop (txt : List Char) (imax j : Nat) : Bool :=
  decide (imax ≤ j) ||
  (!char_is_unicode_ws (charAt txt j) &&
   !(charAt txt j == '/' && decide (j + 1 < txt.length) &&
     (charAt txt (j + 1) == '/' || charAt txt (j + 1) == '*')))

theorem jws_cases {c : Char} (h : char_is_json_ws c = true) :
    c = ' ' ∨ c = '\t' ∨ c = '\n' ∨ c = '\r' := by
  simp only [char_is_json_ws, Bool.or_eq_true, beq_iff_eq] at h
  tauto

theorem jws_to_uws {c : Char} (h : char_is_json_ws c = true) :
    char_is_unicode_ws c = true := by
  rcases jws_cases h with h | h | h | h <;> subst h <;> rfl

theorem jws_ne_slash {c : Char} (h : char_is_json_ws c = true) :
    (c == '/') = false := by
  rcases jws_cases h with h | h | h | h <;> subst h <;> rfl

theorem uws_false_of_token {c : Char} (h1 : 0x21 ≤ c.toNat) (h2 : c.toNat ≤ 0x7E) :
    char_is_unicode_ws c = false := by
  rw [← Bool.not_eq_true]
  intro hw
  simp only [char_is_unicode_ws, isZs, Bool.or_eq_true, beq_iff_eq, Bool.and_eq_true,
    decide_eq_true_eq] at hw
  rcases hw with ((((((h | h) | h) | h) | h) | h) | h)
  · subst h; exact absurd h1 (by decide)
  · subst h; exact absurd h1 (by decide)
  · subst h; exact absurd h1 (by decide)
  · subst h; exact absurd h1 (by decide)
  · subst h; exact absurd h1 (by decide)
  · subst h; exact absurd h1 (by decide)
  · omega

theorem nsStop_of_token {txt : List Char} {imax j : Nat}
    (h1 : 0x21 ≤ (charAt txt j).toNat) (h2 : (charAt txt j).toNat ≤ 0x7E)
    (h3 : (charAt txt j).toNat ≠ 0x2F) : nsStop txt imax j = true := by
  unfold nsStop
  rw [uws_false_of_token h1 h2,
    show (charAt txt j == '/') = false from
      beq_eq_false_iff_ne.mpr (char_ne_of_toNat_ne (by rw [show ('/' : Char).toNat = 0x2F from rfl]; omega))]
  simp

theorem nsStop_past {txt : List Char} {imax j : Nat} (h : imax ≤ j) :
    nsStop txt imax j = true := by
  unfold nsStop
  simp [h]

theorem skipws_go_stop (txt : List Char) (imax : Nat) :
    ∀ (fuel i : Nat), imax < i + fuel →
      imax ≤ skipws_simple.go txt imax i fuel ∨
      char_is_json_ws (charAt txt (skipws_simple.go txt imax i fuel)) = false := by
  intro fuel
  induction fuel with
  | zero =>
      intro i h
      left
      simp only [skipws_simple.go]
      omega
  | succ fuel ih =>
      intro i h
      rw [skipws_simple.go]
      by_cases h1 : i < imax
      · rw [if_pos h1]
        by_cases h2 : char_is_json_ws (charAt txt i) = true
        · rw [if_pos h2]
          exact ih (i + 1) (by omega)
        · rw [if_neg h2]
          right
          exact Bool.not_eq_true _ ▸ h2
      · rw [if_neg h1]
        left
        omega

theorem skipws_simple_stop (txt : List Char) (i imax : Nat) :
    imax ≤ skipws_simple txt i imax ∨
    char_is_json_ws (charAt txt (skipws_simple txt i imax)) = false :=
  skipws_go_stop txt imax (imax + 1) i (by omega)

theorem skipws_simple_fix {txt : List Char} {i imax : Nat}
    (h : imax ≤ i ∨ char_is_json_ws (charAt txt i) = false) :
    skipws_simple txt i imax = i := by
  unfold skipws_simple
  rw [skipws_simple.go]
  rcases h with h | h
  · rw [if_neg (by omega)]
  · by_cases h1 : i < imax
    · rw [if_pos h1, if_neg (by rw [h]; exact Bool.false_ne_true)]
    · rw [if_neg h1]

theorem skipws_simple_idem (txt : List Char) (i imax : Nat) :
    skipws_simple txt (skipws_simple txt i imax) imax = skipws_simple txt i imax :=
  skipws_simple_fix (skipws_simple_stop txt i imax)

theorem skipws_any_lockstep (txt : List Char) (imax : Nat) :
    ∀ fuel : Nat, 0 < fuel → ∀ i : Nat, imax < i + fuel →
      nsStop txt imax (skipws_simple.go txt imax i fuel) = true →
      skipws_any_loop (set_strictness false) txt imax i fuel =
        .ok (skipws_simple.go txt imax i fuel) := by
  intro fuel
  induction fuel with
  | zero => intro h; exact absurd h (by omega)
  | succ fuel ih =>
      intro _ i hfu hstop
      by_cases h1 : i < imax
      · by_cases h2 : char_is_json_ws (charAt txt i) = true
        · -- a JSON whitespace character: both loops advance one position
          have hgo : skipws_simple.go txt imax i (fuel + 1) =
              skipws_simple.go txt imax (i + 1) fuel := by
            rw [skipws_simple.go, if_pos h1, if_pos h2]
          rw [hgo] at hstop ⊢
          have hfuel0 : 0 < fuel := by
            rcases Nat.eq_zero_or_pos fuel with h0 | h0
            · subst h0
              exact absurd hfu (by omega)
            · exact h0
          rw [skipws_any_loop]
          simp only [h1, if_pos h1, jws_ne_slash h2, Bool.false_eq_true, if_false,
            show isws (set_strictness false) (charAt txt i) = char_is_unicode_ws (charAt txt i)
              from rfl, jws_to_uws h2, Bool.and_true, Except.bind, bind, pure, Except.pure,
            decide_eq_true_eq]
          rw [if_pos trivial, if_pos trivial]
          exact ih hfuel0 (i + 1) (by omega) hstop
        · -- stop character
          have hgo : skipws_simple.go txt imax i (fuel + 1) = i := by
            rw [skipws_simple.go, if_pos h1, if_neg h2]
          rw [hgo] at hstop ⊢
          unfold nsStop at hstop
          rw [decide_eq_false (by omega : ¬ imax ≤ i), Bool.false_or,
            Bool.and_eq_true, Bool.not_eq_true', Bool.not_eq_true'] at hstop
          obtain ⟨huws, hcmt⟩ := hstop
          rw [skipws_any_loop]
          rw [if_pos h1]
          by_cases hsl : (charAt txt i == '/') = true
          · have hguard : (decide (i + 1 ≥ txt.length) || charAt txt i != '/' ||
                !(charAt txt (i + 1) == '/' || charAt txt (i + 1) == '*')) = true := by
              rw [hsl, Bool.true_and] at hcmt
              rw [Bool.and_eq_false_iff] at hcmt
              rcases hcmt with hcmt | hcmt
              · simp only [Bool.or_eq_true, decide_eq_true_eq]
                left; left
                simp only [decide_eq_false_iff_not, Nat.not_lt] at hcmt
                omega
              · simp only [Bool.or_eq_true, hcmt, Bool.not_false]
                right
                trivial
            simp only [hsl, if_true, skip_comment, hguard, Except.bind, bind, pure,
              Except.pure, if_true, huws,
              show isws (set_strictness false) (charAt txt i) =
                char_is_unicode_ws (charAt txt i) from rfl,
              Bool.and_false, Bool.false_eq_true, if_false]
          · simp only [hsl, if_false, Except.bind, bind, pure, Except.pure, huws,
              show isws (set_strictness false) (charAt txt i) =
                char_is_unicode_ws (charAt txt i) from rfl,
              Bool.and_false, Bool.false_eq_true, if_false]
      · -- already past imax
        have hgo : skipws_simple.go txt imax i (fuel + 1) = i := by
          rw [skipws_simple.go, if_neg h1]
        rw [hgo]
        rw [skipws_any_loop]
        rw [if_neg h1]
        rfl


theorem skipws_strict (txt : List Char) (i imax : Nat) :
    skipws (set_strictness true) txt i imax = .ok (skipws_simple txt i imax) := rfl

theorem skipws_nonstrict {txt : List Char} {imax : Nat} (i : Nat)
    (h : nsStop txt imax (skipws_simple txt i imax) = true) :
    skipws (set_strictness false) txt i imax = .ok (skipws_simple txt i imax) := by
  show skipws_any (set_strictness false) txt i imax = _
  unfold skipws_any
  exact skipws_any_lockstep txt imax (imax + 1) (by omega) i (by omega) h



theorem decode_number_sim (s : List Char) (i imax : Nat) (r : PyNum × Nat)
    (h : decode_number (set_strictness true) s i imax = .ok r) :
    decode_number (set_strictness false) s i imax = .ok r := by
  unfold decode_number at h ⊢
  rcases hsc : scanSigns s imax i 1 with ⟨sign, j⟩
  simp only [hsc] at h ⊢
  simp only [
    show (set_strictness true).all_numeric_signs = false from rfl,
    show (set_strictness true).non_numbers = false from rfl,
    show (set_strictness true).hex_numbers = false from rfl,
    show (set_strictness true).octal_numbers = false from rfl,
    show (set_strictness true).initial_decimal_point = false from rfl,
    Bool.not_false, Bool.not_true, Bool.and_false, Bool.and_true, if_true, if_false,
    Bool.false_eq_true, Bool.true_eq_false, ite_true, ite_false] at h
  simp only [
    show (set_strictness false).all_numeric_signs = true from rfl,
    show (set_strictness false).non_numbers = true from rfl,
    show (set_strictness false).hex_numbers = true from rfl,
    show (set_strictness false).octal_numbers = false from rfl,
    show (set_strictness false).initial_decimal_point = true from rfl,
    Bool.not_false, Bool.not_true, Bool.and_false, Bool.and_true, if_true, if_false,
    Bool.false_eq_true, Bool.true_eq_false, ite_true, ite_false]
  cases hA : (charAt s i == '+' ||
      charAt s i == '-' && decide (i + 1 < imax) &&
        (charAt s (i + 1) == '+' || charAt s (i + 1) == '-')) with
  | true =>
      simp only [hA, if_true, Except.bind, bind, pure, Except.pure, throw, throwThe,
        MonadExceptOf.throw] at h
      exact absurd h (by simp)
  | false =>
      simp only [hA, Bool.false_eq_true, if_false] at h
      cases hNaN : (slice s j (j + 3) == ['N', 'a', 'N']) with
      | true =>
          simp only [hNaN, if_true, Except.bind, bind, pure, Except.pure, throw, throwThe,
            MonadExceptOf.throw] at h
          exact absurd h (by simp)
      | false =>
          simp only [hNaN, Bool.false_eq_true, if_false] at h ⊢
          cases hInf : (slice s j (j + 8) == ['I', 'n', 'f', 'i', 'n', 'i', 't', 'y']) with
          | true =>
              simp only [hInf, if_true, Except.bind, bind, pure, Except.pure, throw, throwThe,
                MonadExceptOf.throw] at h
              exact absurd h (by simp)
          | false =>
              simp only [hInf, Bool.false_eq_true, if_false] at h ⊢
              cases hHex : (slice s j (j + 2) == ['0', 'x'] ||
                  slice s j (j + 2) == ['0', 'X']) with
              | true =>
                  simp only [hHex, if_true, Except.bind, bind, pure, Except.pure, throw, throwThe,
                    MonadExceptOf.throw] at h
                  exact absurd h (by simp)
              | false =>
                  simp only [hHex, Bool.false_eq_true, if_false] at h ⊢
                  generalize hst : numScan s imax j
                      { k := j,
                        could_be_octal := decide (j + 1 < imax) && charAt s j == '0',
                        decpt := Option.none, ept := Option.none, esign := '+',
                        sigdigits := 0 } (imax + 1) = st at h ⊢
                  generalize hnum : slice s j st.k = number at h ⊢
                  cases hDot : (charAt number 0 == '.') with
                  | true =>
                      simp only [hDot, if_true, Except.bind, bind, pure, Except.pure, throw,
                        throwThe, MonadExceptOf.throw] at h
                      cases hE : number.isEmpty with
                      | true =>
                          simp only [hE, if_true] at h
                          exact absurd h (by simp)
                      | false =>
                          simp only [hE, Bool.false_eq_true, if_false] at h
                          exact absurd h (by simp)
                  | false =>
                      simp only [hDot, Bool.false_eq_true, if_false] at h ⊢
                      exact h


theorem decode_string_loop_sim (s : List Char) (imax : Nat) (closer : Char) :
    ∀ fuel : Nat, ∀ (i : Nat) (chunks : List String) (highSur : Option Nat)
      (r : String × Nat),
      decode_string_loop (set_strictness true) s imax closer i chunks highSur fuel =
        .ok r →
      decode_string_loop (set_strictness false) s imax closer i chunks highSur fuel =
        .ok r := by
  intro fuel
  induction fuel with
  | zero =>
      intro i chunks highSur r h
      exact absurd h (by simp [decode_string_loop])
  | succ fuel ih =>
      intro i chunks highSur r h
      rw [decode_string_loop] at h ⊢
      simp only [
        show (set_strictness true).octal_numbers = false from rfl,
        show (set_strictness true).js_string_escapes = false from rfl,
        show (set_strictness true).nonescape_characters = false from rfl,
        show (set_strictness true).control_char_in_string = false from rfl,
        Bool.and_false, Bool.and_true, Bool.not_false, Bool.not_true,
        Bool.false_eq_true, if_true, if_false, ite_true, ite_false] at h
      simp only [
        show (set_strictness false).octal_numbers = false from rfl,
        show (set_strictness false).js_string_escapes = true from rfl,
        show (set_strictness false).nonescape_characters = true from rfl,
        show (set_strictness false).control_char_in_string = true from rfl,
        Bool.and_false, Bool.and_true, Bool.not_false, Bool.not_true,
        Bool.false_eq_true, if_true, if_false, ite_true, ite_false]
      by_cases hi : i < imax
      case neg =>
        rw [if_neg hi] at h
        exact absurd h (by simp)
      case pos =>
      rw [if_pos hi] at h ⊢
      cases hsur : (highSur.isSome &&
          (decide (i + 1 ≥ imax) || !(charAt s i == '\\' && charAt s (i + 1) == 'u'))) with
      | true =>
          simp only [hsur, if_true, Except.bind, bind, pure, Except.pure, throw, throwThe,
            MonadExceptOf.throw] at h
          exact absurd h (by simp)
      | false =>
      simp only [hsur, Bool.false_eq_true, if_false] at h ⊢
      cases hcl : (charAt s i == closer) with
      | true =>
          simp only [hcl, if_true] at h ⊢
          exact h
      | false =>
      simp only [hcl, Bool.false_eq_true, if_false] at h ⊢
      cases hbs : (charAt s i == '\\') with
      | false =>
          simp only [hbs, Bool.false_eq_true, if_false] at h ⊢
          by_cases hctl : (charAt s i).toNat ≤ 0x1f
          · rw [if_pos hctl] at h
            by_cases hlt : islineterm (charAt s i) = true
            · simp only [hlt, if_true] at h
              exact absurd h (by simp)
            · simp only [Bool.not_eq_true] at hlt
              simp only [hlt, Bool.false_eq_true, if_false] at h
              exact absurd h (by simp)
          · rw [if_neg hctl] at h ⊢
            exact ih _ _ _ r h
      | true =>
      simp only [hbs, if_true] at h ⊢
      by_cases hio : i + 1 ≥ imax
      · rw [if_pos hio] at h
        simp only [Except.bind, bind, pure, Except.pure, throw, throwThe,
          MonadExceptOf.throw] at h
        exact absurd h (by simp)
      · rw [if_neg hio] at h ⊢
        simp only [Except.bind, bind, pure, Except.pure] at h ⊢
        cases hq : (charAt s (i + 1) == '"') with
        | true =>
            have he : charAt s (i + 1) = '"' := beq_iff_eq.mp hq
            simp only [he, show escapes_json '"' = some '"' from rfl,
              show escapes_js '"' = some '"' from rfl] at h ⊢
            exact ih _ _ _ r h
        | false =>
        cases hsl : (charAt s (i + 1) == '/') with
        | true =>
            have he : charAt s (i + 1) = '/' := beq_iff_eq.mp hsl
            simp only [he, show escapes_json '/' = some '/' from rfl,
              show escapes_js '/' = Option.none from rfl,
              show (('/' : Char) == 'u') = false from rfl,
              show (('/' : Char) == 'x') = false from rfl,
              Bool.or_self, Bool.false_eq_true, if_false, Bool.false_or, Bool.or_false] at h ⊢
            exact ih _ _ _ r h
        | false =>
        cases hbs2 : (charAt s (i + 1) == '\\') with
        | true =>
            have he : charAt s (i + 1) = '\\' := beq_iff_eq.mp hbs2
            simp only [he, show escapes_json '\\' = some '\\' from rfl,
              show escapes_js '\\' = some '\\' from rfl] at h ⊢
            exact ih _ _ _ r h
        | false =>
        cases hb : (charAt s (i + 1) == 'b') with
        | true =>
            have he : charAt s (i + 1) = 'b' := beq_iff_eq.mp hb
            simp only [he, show escapes_json 'b' = some '\x08' from rfl,
              show escapes_js 'b' = some '\x08' from rfl] at h ⊢
            exact ih _ _ _ r h
        | false =>
        cases hf : (charAt s (i + 1) == 'f') with
        | true =>
            have he : charAt s (i + 1) = 'f' := beq_iff_eq.mp hf
            simp only [he, show escapes_json 'f' = some '\x0c' from rfl,
              show escapes_js 'f' = some '\x0c' from rfl] at h ⊢
            exact ih _ _ _ r h
        | false =>
        cases hn : (charAt s (i + 1) == 'n') with
        | true =>
            have he : charAt s (i + 1) = 'n' := beq_iff_eq.mp hn
            simp only [he, show escapes_json 'n' = some '\n' from rfl,
              show escapes_js 'n' = some '\n' from rfl] at h ⊢
            exact ih _ _ _ r h
        | false =>
        cases hrr : (charAt s (i + 1) == 'r') with
        | true =>
            have he : charAt s (i + 1) = 'r' := beq_iff_eq.mp hrr
            simp only [he, show escapes_json 'r' = some '\x0d' from rfl,
              show escapes_js 'r' = some '\x0d' from rfl] at h ⊢
            exact ih _ _ _ r h
        | false =>
        cases ht : (charAt s (i + 1) == 't') with
        | true =>
            have he : charAt s (i + 1) = 't' := beq_iff_eq.mp ht
            simp only [he, show escapes_json 't' = some '\t' from rfl,
              show escapes_js 't' = some '\t' from rfl] at h ⊢
            exact ih _ _ _ r h
        | false =>
        have hjson : escapes_json (charAt s (i + 1)) = Option.none := by
          simp only [escapes_json, hq, hsl, hbs2, hb, hf, hn, hrr, ht,
            Bool.false_eq_true, if_false]
        rw [hjson] at h
        cases hu : (charAt s (i + 1) == 'u') with
        | true =>
            have he : charAt s (i + 1) = 'u' := beq_iff_eq.mp hu
            rw [he] at h ⊢
            simp only [show escapes_js 'u' = Option.none from rfl,
              show (('u' : Char) == 'u') = true from rfl,
              show (('u' : Char) == 'x') = false from rfl,
              Bool.true_or, Bool.or_false, Bool.false_eq_true, if_true, if_false,
              ite_true, ite_false] at h ⊢
            by_cases htr : i + 1 + 1 + 4 ≥ imax
            · rw [if_pos htr] at h
              exact absurd h (by simp)
            · rw [if_neg htr] at h ⊢
              rcases hhex : decode_hex (slice s (i + 1 + 1) (i + 1 + 1 + 4)) with e | n
              · rw [hhex] at h
                exact absurd h (by simp)
              · rw [hhex] at h
                cases highSur with
                | some hi2 =>
                    simp only [] at h ⊢
                    rcases hsp : surrogate_pair_as_unicode hi2 n with e | v
                    · rw [hsp] at h
                      exact absurd h (by simp)
                    · rw [hsp] at h
                      simp only [] at h
                      exact ih _ _ _ r h
                | none =>
                    simp only [] at h ⊢
                    by_cases h128 : n < 128
                    · rw [if_pos h128] at h ⊢
                      exact ih _ _ _ r h
                    · rw [if_neg h128] at h ⊢
                      cases hhr : (decide (0xd800 ≤ n) && decide (n ≤ 0xdbff)) with
                      | true =>
                          simp only [hhr, if_true] at h ⊢
                          cases hdet : (decide (imax < i + 1 + 1 + 4 + 2) ||
                              charAt s (i + 1 + 1 + 4) != '\\' ||
                              charAt s (i + 1 + 1 + 4 + 1) != 'u') with
                          | true =>
                              simp only [hdet, if_true] at h
                              exact absurd h (by simp)
                          | false =>
                              simp only [hdet, Bool.false_eq_true, if_false] at h ⊢
                              exact ih _ _ _ r h
                      | false =>
                          simp only [hhr, Bool.false_eq_true, if_false] at h ⊢
                          cases hlr : (decide (0xdc00 ≤ n) && decide (n ≤ 0xdfff)) with
                          | true =>
                              simp only [hlr, if_true] at h
                              exact absurd h (by simp)
                          | false =>
                              simp only [hlr, Bool.false_eq_true, if_false] at h ⊢
                              exact ih _ _ _ r h
        | false =>
        cases hx : (charAt s (i + 1) == 'x') with
        | true =>
            simp only [hu, hx, Bool.false_or, if_true, Except.bind, bind, pure, Except.pure,
              throw, throwThe, MonadExceptOf.throw] at h
            exact absurd h (by simp)
        | false =>
            simp only [hu, hx, Bool.or_self, Bool.false_eq_true, if_false] at h
            exact absurd h (by simp)


theorem decode_string_sim (s : List Char) (i imax : Nat) (r : String × Nat)
    (h : decode_string (set_strictness true) s i imax = .ok r) :
    decode_string (set_strictness false) s i imax = .ok r := by
  unfold decode_string at h ⊢
  simp only [
    show (set_strictness true).single_quoted_strings = false from rfl,
    show (set_strictness false).single_quoted_strings = true from rfl,
    Bool.not_false, Bool.not_true, Bool.and_false, Bool.and_true,
    Bool.false_eq_true, if_true, if_false, ite_true, ite_false] at h ⊢
  cases hg : (decide (imax < i + 2) || !(charAt s i == '"' || charAt s i == '\'')) with
  | true =>
      simp only [hg, if_true, Except.bind, bind, pure, Except.pure, throw, throwThe,
        MonadExceptOf.throw] at h
      exact absurd h (by simp)
  | false =>
      simp only [hg, Bool.false_eq_true, if_false, Except.bind, bind, pure,
        Except.pure] at h ⊢
      cases hq : (charAt s i == '\'') with
      | true =>
          simp only [hq, if_true, Except.bind, bind, pure, Except.pure, throw, throwThe,
            MonadExceptOf.throw] at h
          exact absurd h (by simp)
      | false =>
          simp only [hq, Bool.false_eq_true, if_false] at h ⊢
          exact decode_string_loop_sim s imax (charAt s i) (imax + 1) (i + 1) [] Option.none r h


theorem char_toNat_le_of_le {a b : Char} (h : a ≤ b) : a.toNat ≤ b.toNat := by
  change a.val.toNat ≤ b.val.toNat at h
  exact h

theorem charAt_toNat_eq {txt : List Char} {j : Nat} {c : Char}
    (h : charAt txt j = c) : (charAt txt j).toNat = c.toNat := by
  rw [h]

theorem decodeobj_start_token (txt : List Char) (i imax : Nat) (ias ooa : Bool)
    (fuel : Nat) (r : PyVal × Nat)
    (h : decodeobj (set_strictness true) txt i imax ias ooa fuel = .ok r) :
    skipws_simple txt i imax < imax ∧
    0x21 ≤ (charAt txt (skipws_simple txt i imax)).toNat ∧
    (charAt txt (skipws_simple txt i imax)).toNat ≤ 0x7E ∧
    (charAt txt (skipws_simple txt i imax)).toNat ≠ 0x2F := by
  cases fuel with
  | zero => exact absurd h (by simp [decodeobj])
  | succ fuel =>
  rw [decodeobj, skipws_strict] at h
  simp only [Except.bind, bind, pure, Except.pure] at h
  by_cases hge : skipws_simple txt i imax ≥ imax
  · rw [if_pos hge] at h
    exact absurd h (by simp)
  · rw [if_neg hge] at h
    refine ⟨by omega, ?_⟩
    cases hc1 : (charAt txt (skipws_simple txt i imax) == '[' ||
        charAt txt (skipws_simple txt i imax) == '{') with
    | true =>
        rcases Bool.or_eq_true _ _ |>.mp hc1 with hcc | hcc
        · rw [charAt_toNat_eq (beq_iff_eq.mp hcc)]
          refine ⟨by decide, by decide, by decide⟩
        · rw [charAt_toNat_eq (beq_iff_eq.mp hcc)]
          refine ⟨by decide, by decide, by decide⟩
    | false =>
    rw [hc1] at h
    simp only [Bool.false_eq_true, if_false] at h
    cases ooa with
    | true =>
        simp only [if_true] at h
        exact absurd h (by simp)
    | false =>
    simp only [Bool.false_eq_true, if_false] at h
    cases hc2 : (charAt txt (skipws_simple txt i imax) == '"' ||
        charAt txt (skipws_simple txt i imax) == '\'') with
    | true =>
        rcases Bool.or_eq_true _ _ |>.mp hc2 with hcc | hcc
        · rw [charAt_toNat_eq (beq_iff_eq.mp hcc)]
          refine ⟨by decide, by decide, by decide⟩
        · rw [charAt_toNat_eq (beq_iff_eq.mp hcc)]
          refine ⟨by decide, by decide, by decide⟩
    | false =>
    rw [hc2] at h
    simp only [Bool.false_eq_true, if_false] at h
    cases hc3 : (pyIsDigit (charAt txt (skipws_simple txt i imax)) ||
        charAt txt (skipws_simple txt i imax) == '.' ||
        charAt txt (skipws_simple txt i imax) == '+' ||
        charAt txt (skipws_simple txt i imax) == '-') with
    | true =>
        rcases Bool.or_eq_true _ _ |>.mp hc3 with hcc | hcc
        rcases Bool.or_eq_true _ _ |>.mp hcc with hcc2 | hcc2
        rcases Bool.or_eq_true _ _ |>.mp hcc2 with hcc3 | hcc3
        · -- digit
          simp only [pyIsDigit, Bool.and_eq_true, decide_eq_true_eq] at hcc3
          have h1 := char_toNat_le_of_le hcc3.1
          have h2 := char_toNat_le_of_le hcc3.2
          rw [show ('0' : Char).toNat = 48 from rfl] at h1
          rw [show ('9' : Char).toNat = 57 from rfl] at h2
          exact ⟨by omega, by omega, by omega⟩
        · rw [charAt_toNat_eq (beq_iff_eq.mp hcc3)]
          refine ⟨by decide, by decide, by decide⟩
        · rw [charAt_toNat_eq (beq_iff_eq.mp hcc2)]
          refine ⟨by decide, by decide, by decide⟩
        · rw [charAt_toNat_eq (beq_iff_eq.mp hcc)]
          refine ⟨by decide, by decide, by decide⟩
    | false =>
    rw [hc3] at h
    simp only [Bool.false_eq_true, if_false] at h
    cases hc4 : (pyIsAlpha (charAt txt (skipws_simple txt i imax)) ||
        charAt txt (skipws_simple txt i imax) == '_' ||
        charAt txt (skipws_simple txt i imax) == '$') with
    | true =>
        rcases Bool.or_eq_true _ _ |>.mp hc4 with hcc | hcc
        rcases Bool.or_eq_true _ _ |>.mp hcc with hcc2 | hcc2
        · -- alpha
          simp only [pyIsAlpha, Bool.or_eq_true, Bool.and_eq_true, decide_eq_true_eq] at hcc2
          rcases hcc2 with ⟨ha, hb⟩ | ⟨ha, hb⟩
          · have h1 := char_toNat_le_of_le ha
            have h2 := char_toNat_le_of_le hb
            rw [show ('a' : Char).toNat = 97 from rfl] at h1
            rw [show ('z' : Char).toNat = 122 from rfl] at h2
            exact ⟨by omega, by omega, by omega⟩
          · have h1 := char_toNat_le_of_le ha
            have h2 := char_toNat_le_of_le hb
            rw [show ('A' : Char).toNat = 65 from rfl] at h1
            rw [show ('Z' : Char).toNat = 90 from rfl] at h2
            exact ⟨by omega, by omega, by omega⟩
        · rw [charAt_toNat_eq (beq_iff_eq.mp hcc2)]
          refine ⟨by decide, by decide, by decide⟩
        · rw [charAt_toNat_eq (beq_iff_eq.mp hcc)]
          refine ⟨by decide, by decide, by decide⟩
    | false =>
    rw [hc4] at h
    simp only [Bool.false_eq_true, if_false] at h
    exact absurd h (by simp)


theorem loop_start_stop (txt : List Char) (imax : Nat) (isdict : Bool) (closer : Char)
    (starti : Nat) (la : List PyVal) (da : List (PyVal × PyVal)) (sv : Bool) (i : Nat)
    (fuel : Nat) (r : PyVal × Nat)
    (hClo : closer = ']' ∨ closer = '}')
    (h : decode_composite_loop (set_strictness true) txt imax isdict closer starti
      la da sv i fuel = .ok r) :
    nsStop txt imax (skipws_simple txt i imax) = true := by
  cases fuel with
  | zero => exact absurd h (by simp [decode_composite_loop])
  | succ fuel =>
  rw [decode_composite_loop] at h
  by_cases hi : i < imax
  case neg =>
    rw [if_neg hi] at h
    cases isdict with
    | true => simp only [if_true] at h; exact absurd h (by simp)
    | false => simp only [Bool.false_eq_true, if_false] at h; exact absurd h (by simp)
  case pos =>
  rw [if_pos hi, skipws_strict] at h
  simp only [Except.bind, bind, pure, Except.pure] at h
  cases hcond : (decide (skipws_simple txt i imax < imax) &&
      (charAt txt (skipws_simple txt i imax) == ',' ||
       charAt txt (skipws_simple txt i imax) == closer)) with
  | true =>
      obtain ⟨hlt, hor⟩ := (Bool.and_eq_true _ _).mp hcond
      rcases (Bool.or_eq_true _ _).mp hor with hc | hc
      · exact nsStop_of_token
          (by rw [charAt_toNat_eq (beq_iff_eq.mp hc)]; decide)
          (by rw [charAt_toNat_eq (beq_iff_eq.mp hc)]; decide)
          (by rw [charAt_toNat_eq (beq_iff_eq.mp hc)]; decide)
      · rcases hClo with hcl | hcl <;>
          (subst hcl
           exact nsStop_of_token
             (by rw [charAt_toNat_eq (beq_iff_eq.mp hc)]; decide)
             (by rw [charAt_toNat_eq (beq_iff_eq.mp hc)]; decide)
             (by rw [charAt_toNat_eq (beq_iff_eq.mp hc)]; decide))
  | false =>
      rw [hcond] at h
      simp only [Bool.false_eq_true, if_false,
        show (set_strictness true).nonstring_keys = false from rfl,
        Bool.and_false] at h
      rcases hobj : decodeobj (set_strictness true) txt (skipws_simple txt i imax) imax
          false false fuel with e | r0
      · rw [hobj] at h
        exact absurd h (by simp)
      · have htok := decodeobj_start_token txt (skipws_simple txt i imax) imax
          false false fuel r0 hobj
        rw [skipws_simple_idem] at htok
        exact nsStop_of_token htok.2.1 htok.2.2.1 htok.2.2.2


theorem decode_sim_mutual : ∀ fuel : Nat,
    (∀ (txt : List Char) (i imax : Nat) (ias2 : Bool) (r : PyVal × Nat),
      decodeobj (set_strictness true) txt i imax false false fuel = .ok r →
      decodeobj (set_strictness false) txt i imax ias2 false fuel = .ok r) ∧
    (∀ (txt : List Char) (imax : Nat) (isdict : Bool) (closer : Char) (starti : Nat)
        (la : List PyVal) (da : List (PyVal × PyVal)) (sv : Bool) (i : Nat)
        (r : PyVal × Nat),
      (closer = ']' ∨ closer = '}') →
      decode_composite_loop (set_strictness true) txt imax isdict closer starti
        la da sv i fuel = .ok r →
      decode_composite_loop (set_strictness false) txt imax isdict closer starti
        la da sv i fuel = .ok r) ∧
    (∀ (txt : List Char) (i imax : Nat) (r : PyVal × Nat),
      decode_composite (set_strictness true) txt i imax fuel = .ok r →
      decode_composite (set_strictness false) txt i imax fuel = .ok r) := by
  intro fuel
  induction fuel with
  | zero =>
      refine ⟨?_, ?_, ?_⟩
      · intro txt i imax ias2 r h
        exact absurd h (by simp [decodeobj])
      · intro txt imax isdict closer starti la da sv i r hClo h
        exact absurd h (by simp [decode_composite_loop])
      · intro txt i imax r h
        exact absurd h (by simp [decode_composite])
  | succ fuel ih =>
      obtain ⟨ihP, ihQ, ihR⟩ := ih
      refine ⟨?_, ?_, ?_⟩
      · -- decodeobj
        intro txt i imax ias2 r h
        have htok := decodeobj_start_token txt i imax false false (fuel + 1) r h
        have hstop : nsStop txt imax (skipws_simple txt i imax) = true :=
          nsStop_of_token htok.2.1 htok.2.2.1 htok.2.2.2
        rw [decodeobj] at h ⊢
        simp only [skipws_strict] at h
        rw [skipws_nonstrict i hstop]
        simp only [Except.bind, bind, pure, Except.pure] at h ⊢
        by_cases hge : skipws_simple txt i imax ≥ imax
        · rw [if_pos hge] at h
          exact absurd h (by simp)
        · rw [if_neg hge] at h ⊢
          cases hc1 : (charAt txt (skipws_simple txt i imax) == '[' ||
              charAt txt (skipws_simple txt i imax) == '{') with
          | true =>
              simp only [hc1, if_true] at h ⊢
              exact ihR txt (skipws_simple txt i imax) imax r h
          | false =>
          simp only [hc1, Bool.false_eq_true, if_false] at h ⊢
          cases hc2 : (charAt txt (skipws_simple txt i imax) == '"' ||
              charAt txt (skipws_simple txt i imax) == '\'') with
          | true =>
              simp only [hc2, if_true] at h ⊢
              rcases hs : decode_string (set_strictness true) txt
                  (skipws_simple txt i imax) imax with e | r0
              · rw [hs] at h
                exact absurd h (by simp)
              · rw [hs] at h
                rw [decode_string_sim _ _ _ _ hs]
                exact h
          | false =>
          simp only [hc2, Bool.false_eq_true, if_false] at h ⊢
          cases hc3 : (pyIsDigit (charAt txt (skipws_simple txt i imax)) ||
              charAt txt (skipws_simple txt i imax) == '.' ||
              charAt txt (skipws_simple txt i imax) == '+' ||
              charAt txt (skipws_simple txt i imax) == '-') with
          | true =>
              simp only [hc3, if_true] at h ⊢
              rcases hs : decode_number (set_strictness true) txt
                  (skipws_simple txt i imax) imax with e | r0
              · rw [hs] at h
                exact absurd h (by simp)
              · rw [hs] at h
                rw [decode_number_sim _ _ _ _ hs]
                exact h
          | false =>
          simp only [hc3, Bool.false_eq_true, if_false] at h ⊢
          cases hc4 : (pyIsAlpha (charAt txt (skipws_simple txt i imax)) ||
              charAt txt (skipws_simple txt i imax) == '_' ||
              charAt txt (skipws_simple txt i imax) == '$') with
          | false =>
              simp only [hc4, Bool.false_eq_true, if_false] at h
              exact absurd h (by simp)
          | true =>
          simp only [hc4, if_true] at h ⊢
          cases hk1 : (slice txt (skipws_simple txt i imax)
              (scanIdent txt imax (skipws_simple txt i imax)) == "null".data) with
          | true =>
              simp only [hk1, if_true] at h ⊢
              exact h
          | false =>
          simp only [hk1, Bool.false_eq_true, if_false] at h ⊢
          cases hk2 : (slice txt (skipws_simple txt i imax)
              (scanIdent txt imax (skipws_simple txt i imax)) == "true".data) with
          | true =>
              simp only [hk2, if_true] at h ⊢
              exact h
          | false =>
          simp only [hk2, Bool.false_eq_true, if_false] at h ⊢
          cases hk3 : (slice txt (skipws_simple txt i imax)
              (scanIdent txt imax (skipws_simple txt i imax)) == "false".data) with
          | true =>
              simp only [hk3, if_true] at h ⊢
              exact h
          | false =>
          simp only [hk3, Bool.false_eq_true, if_false] at h ⊢
          cases hk4 : (slice txt (skipws_simple txt i imax)
              (scanIdent txt imax (skipws_simple txt i imax)) == "undefined".data) with
          | true =>
              simp only [hk4, if_true,
                show (set_strictness true).undefined_values = false from rfl,
                Bool.false_eq_true, if_false] at h
              exact absurd h (by simp)
          | false =>
          simp only [hk4, Bool.false_eq_true, if_false] at h ⊢
          cases hk5 : (slice txt (skipws_simple txt i imax)
              (scanIdent txt imax (skipws_simple txt i imax)) == "NaN".data ||
              slice txt (skipws_simple txt i imax)
              (scanIdent txt imax (skipws_simple txt i imax)) == "Infinity".data) with
          | true =>
              simp only [hk5, if_true] at h ⊢
              rcases hs : decode_number (set_strictness true) txt
                  (skipws_simple txt i imax) txt.length with e | r0
              · rw [hs] at h
                exact absurd h (by simp)
              · rw [hs] at h
                rw [decode_number_sim _ _ _ _ hs]
                exact h
          | false =>
              simp only [hk5, Bool.false_eq_true, if_false] at h
              exact absurd h (by simp)
      · -- decode_composite_loop
        intro txt imax isdict closer starti la da sv i r hClo h
        have hstop : nsStop txt imax (skipws_simple txt i imax) = true :=
          loop_start_stop txt imax isdict closer starti la da sv i (fuel + 1) r hClo h
        rw [decode_composite_loop] at h ⊢
        by_cases hi : i < imax
        case neg =>
          rw [if_neg hi] at h
          cases isdict with
          | true => simp only [if_true] at h; exact absurd h (by simp)
          | false =>
              simp only [Bool.false_eq_true, if_false] at h
              exact absurd h (by simp)
        case pos =>
        rw [if_pos hi] at h ⊢
        simp only [skipws_strict] at h
        rw [skipws_nonstrict i hstop]
        simp only [Except.bind, bind, pure, Except.pure] at h ⊢
        cases hcond : (decide (skipws_simple txt i imax < imax) &&
            (charAt txt (skipws_simple txt i imax) == ',' ||
             charAt txt (skipws_simple txt i imax) == closer)) with
        | true =>
            simp only [hcond, if_true] at h ⊢
            cases hcm : (charAt txt (skipws_simple txt i imax) == ',') with
            | true =>
                simp only [hcm, if_true] at h ⊢
                cases sv with
                | false =>
                    simp only [Bool.not_false, if_true,
                      show (set_strictness true).omitted_array_elements = false from rfl,
                      Bool.false_eq_true, if_false] at h
                    cases isdict with
                    | true =>
                        simp only [if_true, Except.bind, bind, pure, Except.pure, throw,
                          throwThe, MonadExceptOf.throw] at h
                        exact absurd h (by simp)
                    | false =>
                        simp only [Bool.false_eq_true, if_false, Except.bind, bind, pure,
                          Except.pure, throw, throwThe, MonadExceptOf.throw] at h
                        exact absurd h (by simp)
                | true =>
                    simp only [Bool.not_true, Bool.false_eq_true, if_false] at h ⊢
                    exact ihQ txt imax isdict closer starti la da false
                      (skipws_simple txt i imax + 1) r hClo h
            | false =>
                simp only [hcm, Bool.false_eq_true, if_false] at h ⊢
                cases sv with
                | false =>
                    simp only [Bool.not_false, Bool.true_and,
                      show (set_strictness true).trailing_comma_in_literal = false from rfl,
                      Bool.not_false, Bool.and_true, if_true] at h
                    cases isdict with
                    | true =>
                        simp only [if_true, Except.bind, bind, pure, Except.pure, throw,
                          throwThe, MonadExceptOf.throw] at h
                        exact absurd h (by simp)
                    | false =>
                        simp only [Bool.false_eq_true, if_false, Except.bind, bind, pure,
                          Except.pure, throw, throwThe, MonadExceptOf.throw] at h
                        exact absurd h (by simp)
                | true =>
                    simp only [Bool.not_true, Bool.false_and, Bool.false_eq_true, if_false,
                      show (set_strictness false).trailing_comma_in_literal = true
                        from rfl] at h ⊢
                    exact h
        | false =>
            simp only [hcond, Bool.false_eq_true, if_false,
              show (set_strictness true).nonstring_keys = false from rfl,
              show (set_strictness false).nonstring_keys = true from rfl,
              Bool.and_false, Bool.and_true] at h ⊢
            cases isdict with
            | false =>
                simp only [Bool.false_eq_true, if_false] at h ⊢
                rcases hobj : decodeobj (set_strictness true) txt
                    (skipws_simple txt i imax) imax false false fuel with e | r0
                · rw [hobj] at h
                  exact absurd h (by simp)
                · rw [hobj] at h
                  rw [ihP txt (skipws_simple txt i imax) imax false r0 hobj]
                  simp only [Except.bind, bind, pure, Except.pure] at h ⊢
                  cases sv with
                  | true =>
                      simp only [if_true, Except.bind, bind, pure, Except.pure, throw,
                        throwThe, MonadExceptOf.throw] at h
                      exact absurd h (by simp)
                  | false =>
                      simp only [Bool.false_eq_true, if_false] at h ⊢
                      have hstop2 : nsStop txt imax
                          (skipws_simple txt r0.2 imax) = true := by
                        have := loop_start_stop txt imax false closer starti
                          (la ++ [r0.1]) da true (skipws_simple txt r0.2 imax) fuel r
                          hClo h
                        rwa [skipws_simple_idem] at this
                      rw [skipws_nonstrict r0.2 hstop2]
                      simp only [Except.bind, bind, pure, Except.pure]
                      exact ihQ txt imax false closer starti (la ++ [r0.1]) da true
                        (skipws_simple txt r0.2 imax) r hClo h
            | true =>
                simp only [if_true] at h ⊢
                rcases hobj : decodeobj (set_strictness true) txt
                    (skipws_simple txt i imax) imax false false fuel with e | r0
                · rw [hobj] at h
                  exact absurd h (by simp)
                · rw [hobj] at h
                  rw [ihP txt (skipws_simple txt i imax) imax true r0 hobj]
                  simp only [Except.bind, bind, pure, Except.pure] at h ⊢
                  cases sv with
                  | true =>
                      simp only [if_true, Except.bind, bind, pure, Except.pure, throw,
                        throwThe, MonadExceptOf.throw] at h
                      exact absurd h (by simp)
                  | false =>
                      simp only [Bool.false_eq_true, if_false] at h ⊢
                      cases hstr : isstringtype r0.1 with
                      | false =>
                          simp only [hstr, Bool.not_false, if_true] at h
                          cases hnum : isnumbertype r0.1 with
                          | true =>
                              simp only [hnum, if_true,
                                show (set_strictness true).nonstring_keys = false from rfl,
                                Bool.not_false, if_true, Except.bind, bind, pure,
                                Except.pure, throw, throwThe, MonadExceptOf.throw] at h
                              exact absurd h (by simp)
                          | false =>
                              simp only [hnum, Bool.false_eq_true, if_false, Except.bind,
                                bind, pure, Except.pure, throw, throwThe,
                                MonadExceptOf.throw] at h
                              exact absurd h (by simp)
                      | true =>
                          simp only [hstr, Bool.not_true, Bool.false_eq_true,
                            if_false] at h ⊢
                          cases hcolon : (decide (skipws_simple txt r0.2 imax ≥ imax) ||
                              charAt txt (skipws_simple txt r0.2 imax) != ':') with
                          | true =>
                              simp only [hcolon, if_true, Except.bind, bind, pure,
                                Except.pure, throw, throwThe, MonadExceptOf.throw] at h
                              exact absurd h (by simp)
                          | false =>
                              obtain ⟨hcol1, hcol2⟩ :=
                                (Bool.or_eq_false_iff).mp hcolon
                              have hcoleq : charAt txt (skipws_simple txt r0.2 imax) =
                                  ':' := by
                                rwa [bne_eq_false_iff_eq] at hcol2
                              have hstop2 : nsStop txt imax
                                  (skipws_simple txt r0.2 imax) = true :=
                                nsStop_of_token
                                  (by rw [charAt_toNat_eq hcoleq]; decide)
                                  (by rw [charAt_toNat_eq hcoleq]; decide)
                                  (by rw [charAt_toNat_eq hcoleq]; decide)
                              rw [skipws_nonstrict r0.2 hstop2]
                              simp only [hcolon, Bool.false_eq_true, if_false,
                                Except.bind, bind, pure, Except.pure] at h ⊢
                              rcases hrv : decodeobj (set_strictness true) txt
                                  (skipws_simple txt (skipws_simple txt r0.2 imax + 1)
                                    imax) imax false false fuel with e | rv
                              · rw [hrv] at h
                                exact absurd h (by simp)
                              · rw [hrv] at h
                                have htok3 := decodeobj_start_token txt
                                  (skipws_simple txt (skipws_simple txt r0.2 imax + 1)
                                    imax) imax false false fuel rv hrv
                                rw [skipws_simple_idem] at htok3
                                have hstop3 : nsStop txt imax
                                    (skipws_simple txt
                                      (skipws_simple txt r0.2 imax + 1) imax) = true :=
                                  nsStop_of_token htok3.2.1 htok3.2.2.1 htok3.2.2.2
                                rw [skipws_nonstrict _ hstop3]
                                simp only [Except.bind, bind, pure, Except.pure]
                                rw [ihP txt _ imax false rv hrv]
                                simp only [Except.bind, bind, pure, Except.pure] at h ⊢
                                have hstop4 : nsStop txt imax
                                    (skipws_simple txt rv.2 imax) = true := by
                                  have := loop_start_stop txt imax true closer starti
                                    la (dictInsert da r0.1 rv.1) true
                                    (skipws_simple txt rv.2 imax) fuel r hClo h
                                  rwa [skipws_simple_idem] at this
                                rw [skipws_nonstrict rv.2 hstop4]
                                simp only [Except.bind, bind, pure, Except.pure]
                                exact ihQ txt imax true closer starti la
                                  (dictInsert da r0.1 rv.1) true
                                  (skipws_simple txt rv.2 imax) r hClo h
      · -- decode_composite
        intro txt i imax r h
        rw [decode_composite] at h ⊢
        simp only [skipws_strict] at h
        simp only [Except.bind, bind, pure, Except.pure] at h
        cases hguard : (decide (skipws_simple txt i imax ≥ imax) ||
            !(charAt txt (skipws_simple txt i imax) == '[' ||
              charAt txt (skipws_simple txt i imax) == '{')) with
        | true =>
            simp only [hguard, if_true, Except.bind, bind, pure, Except.pure, throw,
              throwThe, MonadExceptOf.throw] at h
            exact absurd h (by simp)
        | false =>
            obtain ⟨hg1, hg2⟩ := (Bool.or_eq_false_iff).mp hguard
            have hbr : (charAt txt (skipws_simple txt i imax) == '[' ||
                charAt txt (skipws_simple txt i imax) == '{') = true := by
              cases hb : (charAt txt (skipws_simple txt i imax) == '[' ||
                  charAt txt (skipws_simple txt i imax) == '{') with
              | true => rfl
              | false =>
                  rw [hb] at hg2
                  exact absurd hg2 (by simp)
            have hstop : nsStop txt imax (skipws_simple txt i imax) = true := by
              rcases (Bool.or_eq_true _ _).mp hbr with hc | hc
              · exact nsStop_of_token
                  (by rw [charAt_toNat_eq (beq_iff_eq.mp hc)]; decide)
                  (by rw [charAt_toNat_eq (beq_iff_eq.mp hc)]; decide)
                  (by rw [charAt_toNat_eq (beq_iff_eq.mp hc)]; decide)
              · exact nsStop_of_token
                  (by rw [charAt_toNat_eq (beq_iff_eq.mp hc)]; decide)
                  (by rw [charAt_toNat_eq (beq_iff_eq.mp hc)]; decide)
                  (by rw [charAt_toNat_eq (beq_iff_eq.mp hc)]; decide)
            rw [skipws_nonstrict i hstop]
            simp only [hguard, Bool.false_eq_true, if_false, Except.bind, bind, pure,
              Except.pure] at h ⊢
            cases hd : (charAt txt (skipws_simple txt i imax) == '{') with
            | true =>
                simp only [hd, if_true, ite_true] at h ⊢
                cases hemp : (decide (skipws_simple txt
                    (skipws_simple txt i imax + 1) imax < imax) &&
                    (charAt txt (skipws_simple txt
                      (skipws_simple txt i imax + 1) imax) == '}')) with
                | true =>
                    obtain ⟨he1, he2⟩ := (Bool.and_eq_true _ _).mp hemp
                    have hstop2 : nsStop txt imax
                        (skipws_simple txt (skipws_simple txt i imax + 1) imax) = true :=
                      nsStop_of_token
                        (by rw [charAt_toNat_eq (beq_iff_eq.mp he2)]; decide)
                        (by rw [charAt_toNat_eq (beq_iff_eq.mp he2)]; decide)
                        (by rw [charAt_toNat_eq (beq_iff_eq.mp he2)]; decide)
                    rw [skipws_nonstrict _ hstop2]
                    simp only [hemp, if_true, Except.bind, bind, pure, Except.pure] at h ⊢
                    exact h
                | false =>
                    have hstop2 : nsStop txt imax
                        (skipws_simple txt (skipws_simple txt i imax + 1) imax) = true := by
                      simp only [hemp, Bool.false_eq_true, if_false] at h
                      have := loop_start_stop txt imax true '}'
                        (skipws_simple txt i imax) [] [] false
                        (skipws_simple txt (skipws_simple txt i imax + 1) imax) fuel r
                        (Or.inr rfl) h
                      rwa [skipws_simple_idem] at this
                    rw [skipws_nonstrict _ hstop2]
                    simp only [hemp, Bool.false_eq_true, if_false, Except.bind, bind,
                      pure, Except.pure] at h ⊢
                    exact ihQ txt imax true '}' (skipws_simple txt i imax) [] [] false
                      (skipws_simple txt (skipws_simple txt i imax + 1) imax) r
                      (Or.inr rfl) h
            | false =>
                simp only [hd, Bool.false_eq_true, if_false, ite_false] at h ⊢
                cases hemp : (decide (skipws_simple txt
                    (skipws_simple txt i imax + 1) imax < imax) &&
                    (charAt txt (skipws_simple txt
                      (skipws_simple txt i imax + 1) imax) == ']')) with
                | true =>
                    obtain ⟨he1, he2⟩ := (Bool.and_eq_true _ _).mp hemp
                    have hstop2 : nsStop txt imax
                        (skipws_simple txt (skipws_simple txt i imax + 1) imax) = true :=
                      nsStop_of_token
                        (by rw [charAt_toNat_eq (beq_iff_eq.mp he2)]; decide)
                        (by rw [charAt_toNat_eq (beq_iff_eq.mp he2)]; decide)
                        (by rw [charAt_toNat_eq (beq_iff_eq.mp he2)]; decide)
                    rw [skipws_nonstrict _ hstop2]
                    simp only [hemp, if_true, Except.bind, bind, pure, Except.pure] at h ⊢
                    exact h
                | false =>
                    have hstop2 : nsStop txt imax
                        (skipws_simple txt (skipws_simple txt i imax + 1) imax) = true := by
                      simp only [hemp, Bool.false_eq_true, if_false] at h
                      have := loop_start_stop txt imax false ']'
                        (skipws_simple txt i imax) [] [] false
                        (skipws_simple txt (skipws_simple txt i imax + 1) imax) fuel r
                        (Or.inl rfl) h
                      rwa [skipws_simple_idem] at this
                    rw [skipws_nonstrict _ hstop2]
                    simp only [hemp, Bool.false_eq_true, if_false, Except.bind, bind,
                      pure, Except.pure] at h ⊢
                    exact ihQ txt imax false ']' (skipws_simple txt i imax) [] [] false
                      (skipws_simple txt (skipws_simple txt i imax + 1) imax) r
                      (Or.inl rfl) h


theorem strip_id {txt : List Char} (h : ∀ c ∈ txt, isCf c = false) :
    strip_format_control_chars txt = txt := by
  unfold strip_format_control_chars
  exact List.filter_eq_self.mpr (fun a ha => by rw [h a ha]; rfl)

/-- C2 (counterexample): the document consisting of a double-quoted string
literal holding the single raw character U+00AD (a `Cf` format-control
character) is accepted by the strict decoder with the one-character string as
its value, but the non-strict decoder first strips the U+00AD from the whole
input and returns the empty string: the two accepted values differ.  The same
happens at U+17B4, a character that is `Cf` in the host interpreter's
UCD 5.2.0 table. -/
theorem claim_C2_counterexample :
    decode_method (set_strictness true) ['"', '­', '"'] =
      .ok (.str (String.singleton '­')) ∧
    decode_method (set_strictness false) ['"', '­', '"'] = .ok (.str "") ∧
    isCf '­' = true ∧
    ¬ PyVal.str (String.singleton '­') = PyVal.str "" ∧
    decode_method (set_strictness true) ['"', '឴', '"'] =
      .ok (.str (String.singleton '឴')) ∧
    decode_method (set_strictness false) ['"', '឴', '"'] = .ok (.str "") ∧
    isCf '឴' = true := by
  refine ⟨rfl, rfl, rfl, ?_, rfl, rfl, rfl⟩
  intro hcontra
  rw [PyVal.str.injEq] at hcontra
  have hlen := congrArg String.length hcontra
  exact absurd hlen (by decide)

/-- C2 (amended): every document free of Unicode format-control (`Cf`)
characters that the strict decoder accepts is accepted by the non-strict
decoder with the same value.  (Without the `Cf`-free restriction this fails:
the non-strict decoder strips `Cf` characters from the whole input, string
literal interiors included, and can therefore return a different value.) -/
theorem claim_C2_amended (txt : List Char) (v : PyVal)
    (hcf : ∀ c ∈ txt, isCf c = false)
    (h : decode_method (set_strictness true) txt = .ok v) :
    decode_method (set_strictness false) txt = .ok v := by
  unfold decode_method at h ⊢
  rw [strip_id hcf]
  simp only [
    show (set_strictness true).unicode_format_control_chars = false from rfl,
    show (set_strictness false).unicode_format_control_chars = true from rfl,
    show (set_strictness true).any_type_at_start = true from rfl,
    show (set_strictness false).any_type_at_start = true from rfl,
    Bool.not_true, Bool.false_eq_true, if_false, if_true, ite_true, ite_false,
    Except.bind, bind, pure, Except.pure] at h ⊢
  rcases hobj : decodeobj (set_strictness true) txt 0 txt.length false false
      (txt.length + 1) with e | r0
  · rw [hobj] at h
    exact absurd h (by simp)
  · rw [hobj] at h
    rw [(decode_sim_mutual (txt.length + 1)).1 txt 0 txt.length false r0 hobj]
    simp only [skipws_strict] at h
    simp only [Except.bind, bind, pure, Except.pure] at h ⊢
    by_cases htr : skipws_simple txt r0.2 txt.length < txt.length
    · rw [if_pos htr] at h
      exact absurd h (by simp)
    · rw [skipws_nonstrict r0.2 (nsStop_past (by omega))]
      simp only [Except.bind, bind, pure, Except.pure]
      rw [if_neg htr] at h ⊢
      exact h

theorem claim_C2_amended_witness :
    decode_method (set_strictness false) "[1, true]".data =
      .ok (.list [.num (.int 1), .bool true]) :=
  claim_C2_amended "[1, true]".data (.list [.num (.int 1), .bool true])
    (by decide) rfl

end Demjson
